import Mathlib

/-!
Verification of the agentsight collector framework (Rust) against its
natural-language specification.  The Rust sources under
`src/collector/src/framework/` are shallowly embedded as executable Lean
definitions; machine strings are Lean `String`s manipulated through
character-list helpers that model the corresponding `str` operations from
the Rust standard library, and `serde_json::Value` is modelled by the
`Json` inductive below.
-/

set_option maxRecDepth 10000

/-! ## Models of Rust standard-library string primitives -/

/-- Model of Rust `char::is_whitespace` (the Unicode `White_Space` property). -/
def rustIsWhitespace (c : Char) : Bool :=
  (0x09 ≤ c.toNat && c.toNat ≤ 0x0d) || c.toNat = 0x20 || c.toNat = 0x85 ||
  c.toNat = 0xa0 || c.toNat = 0x1680 || (0x2000 ≤ c.toNat && c.toNat ≤ 0x200a) ||
  c.toNat = 0x2028 || c.toNat = 0x2029 || c.toNat = 0x202f || c.toNat = 0x205f ||
  c.toNat = 0x3000

/-- Model of Rust `char::is_control` (the Unicode `Cc` category). -/
def rustIsControl (c : Char) : Bool :=
  c.toNat ≤ 0x1f || (0x7f ≤ c.toNat && c.toNat ≤ 0x9f)

/-- Model of Rust `char::is_ascii_hexdigit`. -/
def rustIsAsciiHexDigit (c : Char) : Bool :=
  ('0' ≤ c && c ≤ '9') || ('a' ≤ c && c ≤ 'f') || ('A' ≤ c && c ≤ 'F')

/-- Model of Rust `char::is_ascii_digit`. -/
def rustIsAsciiDigit (c : Char) : Bool := '0' ≤ c && c ≤ '9'

/-- ASCII lower-casing of one character.  Models Rust `char::to_lowercase`
on the ASCII range; the full Unicode case mappings never interact with the
ASCII configuration strings compared by this code base. -/
def rustCharLower (c : Char) : Char :=
  if 'A' ≤ c && c ≤ 'Z' then Char.ofNat (c.toNat + 32) else c

/-- ASCII upper-casing of one character, modelling Rust `char::to_uppercase`
on the ASCII range. -/
def rustCharUpper (c : Char) : Char :=
  if 'a' ≤ c && c ≤ 'z' then Char.ofNat (c.toNat - 32) else c

/-- Model of Rust `str::to_lowercase` (ASCII range). -/
def rustLowercase (s : String) : String := String.mk (s.data.map rustCharLower)

/-- Model of Rust `str::to_uppercase` (ASCII range). -/
def rustUppercase (s : String) : String := String.mk (s.data.map rustCharUpper)

/-- Does `pat` occur as a prefix of `l`?  Models Rust `str::starts_with`. -/
def listIsPfx : List Char → List Char → Bool
  | [], _ => true
  | _ :: _, [] => false
  | a :: as', b :: bs => a == b && listIsPfx as' bs

/-- Does `pat` occur as a contiguous sublist of `l`?  Models Rust
`str::contains` on string patterns. -/
def listContainsSub (l pat : List Char) : Bool :=
  match l with
  | [] => pat.isEmpty
  | _ :: rest => listIsPfx pat l || listContainsSub rest pat

/-- First index (in characters) at which `pat` occurs in `l`, if any.
Models Rust `str::find`; Rust reports a byte offset, which coincides with
the character offset on the ASCII data this code applies it to. -/
def listFindSub (l pat : List Char) : Option Nat :=
  match l with
  | [] => if pat.isEmpty then some 0 else none
  | _ :: rest =>
    if listIsPfx pat l then some 0
    else (listFindSub rest pat).map (· + 1)

/-- Model of Rust `str::starts_with`. -/
def strStartsWith (s pat : String) : Bool := listIsPfx pat.data s.data

/-- Model of Rust `str::contains` with a string pattern. -/
def strContains (s pat : String) : Bool := listContainsSub s.data pat.data

/-- Model of Rust `str::find` with a string pattern. -/
def strFind (s pat : String) : Option Nat := listFindSub s.data pat.data

/-- Model of Rust `str::trim`: strip leading and trailing whitespace. -/
def rustTrim (s : String) : String :=
  String.mk (((s.data.dropWhile rustIsWhitespace).reverse.dropWhile
    rustIsWhitespace).reverse)

/-- Splitter loop behind `rustSplit`: `fuel` bounds the recursion depth and
is always at least the length of the remaining input, so it never runs out
before the input does. -/
def splitGo (sep : List Char) : Nat → List Char → List Char → List (List Char)
  | 0, _, cur => [cur.reverse]
  | _ + 1, [], cur => [cur.reverse]
  | fuel + 1, c :: rest, cur =>
    if sep ≠ [] && listIsPfx sep (c :: rest) then
      cur.reverse :: splitGo sep fuel (List.drop (sep.length - 1) rest) []
    else
      splitGo sep fuel rest (c :: cur)

/-- Model of Rust `str::split` with a nonempty string (or char) pattern:
splits on every occurrence of `sep`, keeping empty pieces. -/
def rustSplit (s sep : String) : List String :=
  (splitGo sep.data (s.data.length + 1) s.data []).map String.mk

/-- Model of Rust `str::splitn(2, sep)`: split at the first occurrence of
`sep` only. -/
def rustSplitN2 (s sep : String) : List String :=
  match strFind s sep with
  | none => [s]
  | some i => [String.mk (s.data.take i), String.mk (s.data.drop (i + sep.length))]

/-- Character-drop on a string; models Rust byte slicing `&s[n..]` for the
ASCII prefixes it is applied to. -/
def strDropChars (s : String) (n : Nat) : String := String.mk (s.data.drop n)

/-- Model of Rust `[&str]::join`. -/
def strJoin (parts : List String) (sep : String) : String :=
  String.mk (List.intercalate sep.data (parts.map String.data))

/-- Model of Rust `str::parse::<u64>`: optional sign, at least one ASCII
digit, value within `u64` range. -/
def parseU64 (s : String) : Option Nat :=
  let digits := if strStartsWith s "+" then s.data.drop 1 else s.data
  if digits ≠ [] && digits.all rustIsAsciiDigit then
    let v := digits.foldl (fun a c => a * 10 + (c.toNat - 48)) 0
    if v < 2 ^ 64 then some v else none
  else none

/-- Model of Rust `u32::from_str_radix(s, 16)` applied to a nonempty
all-hex-digit string: the numeric value, or an error (`none`) on overflow
past `u32::MAX`. -/
def hexValue (l : List Char) : Nat :=
  l.foldl (fun a c =>
    a * 16 +
      (if rustIsAsciiDigit c then c.toNat - 48
       else if 'a' ≤ c && c ≤ 'f' then c.toNat - 87
       else c.toNat - 55)) 0

def fromStrRadix16 (l : List Char) : Option Nat :=
  let v := hexValue l
  if v < 2 ^ 32 then some v else none

/-- Model of Rust `str::parse::<f64>` restricted to plain decimal literals
(optional sign, digits, optional fractional part).  Scientific notation,
`inf` and `NaN` are omitted and the value is kept exact as a rational;
every property proved below depends only on the parse either failing or
yielding one fixed number. -/
def parseF64 (s : String) : Option Rat :=
  let core : List Char → Option Rat := fun l =>
    match rustSplitN2 (String.mk l) "." with
    | [intPart] =>
      if intPart.data ≠ [] && intPart.data.all rustIsAsciiDigit then
        some ((intPart.data.foldl (fun a c => a * 10 + (c.toNat - 48)) 0 : Nat) : Rat)
      else none
    | [intPart, fracPart] =>
      if intPart.data ≠ [] && intPart.data.all rustIsAsciiDigit &&
          fracPart.data.all rustIsAsciiDigit then
        let ip : Nat := intPart.data.foldl (fun a c => a * 10 + (c.toNat - 48)) 0
        let fp : Nat := fracPart.data.foldl (fun a c => a * 10 + (c.toNat - 48)) 0
        some ((ip : Rat) + (fp : Rat) / ((10 : Rat) ^ fracPart.data.length))
      else none
    | _ => none
  match s.data with
  | '-' :: rest => (core rest).map (fun q => -q)
  | '+' :: rest => core rest
  | l => core l

/-- Model of `f64::EPSILON`. -/
def f64Epsilon : Rat := 1 / 2 ^ 52

/-- Byte length of a string's UTF-8 encoding; models Rust `String::len`. -/
def rustStrLen (s : String) : Nat := s.utf8ByteSize

/-! ## Model of `serde_json::Value` -/

/-- Model of `serde_json::Value`.  Numbers are kept as exact rationals;
objects are association lists in insertion order. -/
inductive Json where
  | null : Json
  | bool : Bool → Json
  | num : Rat → Json
  | str : String → Json
  | arr : List Json → Json
  | obj : List (String × Json) → Json

/-- Association-list lookup behind `Json.get`. -/
def jsonObjGet : List (String × Json) → String → Option Json
  | [], _ => none
  | f :: rest, key => if f.1 == key then some f.2 else jsonObjGet rest key

/-- Model of `serde_json::Value::get` on objects: the value stored at a
key (objects produced by the parser have distinct keys). -/
def Json.get : Json → String → Option Json
  | .obj fields, key => jsonObjGet fields key
  | _, _ => none

/-- Model of `Value::as_str`. -/
def Json.asStr : Json → Option String
  | .str s => some s
  | _ => none

/-- Model of `Value::as_bool`. -/
def Json.asBool : Json → Option Bool
  | .bool b => some b
  | _ => none

/-- Model of `Value::as_u64`: defined exactly on integral numbers within
`u64` range. -/
def Json.asU64 : Json → Option Nat
  | .num q =>
    if q.den = 1 ∧ 0 ≤ q.num ∧ q.num < 2 ^ 64 then some q.num.toNat else none
  | _ => none

/-- Model of `Value::as_f64` (numbers are exact rationals in this model). -/
def Json.asF64 : Json → Option Rat
  | .num q => some q
  | _ => none

/-- Insert into an object association list with map semantics: replace the
first binding of the key if present, otherwise append.  Models
`serde_json::Map::insert`. -/
def jsonObjInsert (fields : List (String × Json)) (key : String) (v : Json) :
    List (String × Json) :=
  match fields with
  | [] => [(key, v)]
  | (k, w) :: rest =>
    if k == key then (k, v) :: rest else (k, w) :: jsonObjInsert rest key v

/-! ### A model of `serde_json::from_str::<Value>`

Recursive-descent parser for the JSON subset exercised by this code base
(objects, arrays, strings with the standard single-character escapes and
`\uXXXX`, booleans, null, and decimal numbers with optional fraction and
exponent).  Recursion is bounded by a fuel argument that callers set to
the input length plus one, which is always sufficient since every
recursive call consumes at least one character. -/

/-- JSON insignificant whitespace. -/
def jsonWs (c : Char) : Bool := c == ' ' || c == '\t' || c == '\n' || c == '\r'

def skipWs (l : List Char) : List Char := l.dropWhile jsonWs

/-- Parse the remainder of a JSON string literal (the opening quote already
consumed), returning the decoded string and the rest of the input. -/
def parseStringLit : Nat → List Char → List Char → Option (String × List Char)
  | 0, _, _ => none
  | _ + 1, acc, '"' :: rest => some (String.mk acc.reverse, rest)
  | fuel + 1, acc, '\\' :: e :: rest =>
    match e with
    | '"' => parseStringLit fuel ('"' :: acc) rest
    | '\\' => parseStringLit fuel ('\\' :: acc) rest
    | '/' => parseStringLit fuel ('/' :: acc) rest
    | 'b' => parseStringLit fuel ('\x08' :: acc) rest
    | 'f' => parseStringLit fuel ('\x0c' :: acc) rest
    | 'n' => parseStringLit fuel ('\n' :: acc) rest
    | 'r' => parseStringLit fuel ('\r' :: acc) rest
    | 't' => parseStringLit fuel ('\t' :: acc) rest
    | 'u' =>
      match rest with
      | h1 :: h2 :: h3 :: h4 :: rest' =>
        if [h1, h2, h3, h4].all rustIsAsciiHexDigit then
          parseStringLit fuel (Char.ofNat (hexValue [h1, h2, h3, h4]) :: acc) rest'
        else none
      | _ => none
    | _ => none
  | fuel + 1, acc, c :: rest =>
    if c.toNat < 0x20 then none else parseStringLit fuel (c :: acc) rest
  | _, _, [] => none

/-- Parse a JSON number at the head of the input. -/
def parseNumberLit (l : List Char) : Option (Rat × List Char) :=
  let sign : Rat := if listIsPfx ['-'] l then -1 else 1
  let l1 := if listIsPfx ['-'] l then l.drop 1 else l
  let intDigits := l1.takeWhile rustIsAsciiDigit
  let l2 := l1.dropWhile rustIsAsciiDigit
  if intDigits = [] then none else
  let ip : Nat := intDigits.foldl (fun a c => a * 10 + (c.toNat - 48)) 0
  let (frac, l3) :=
    if listIsPfx ['.'] l2 then
      let fd := (l2.drop 1).takeWhile rustIsAsciiDigit
      let fp : Nat := fd.foldl (fun a c => a * 10 + (c.toNat - 48)) 0
      (((fp : Rat) / ((10 : Rat) ^ fd.length), (l2.drop 1).dropWhile rustIsAsciiDigit))
    else ((0 : Rat), l2)
  if listIsPfx ['.'] l2 && (l2.drop 1).takeWhile rustIsAsciiDigit = [] then none else
  let hasExp := listIsPfx ['e'] l3 || listIsPfx ['E'] l3
  if hasExp then
    let l4 := l3.drop 1
    let expNeg := listIsPfx ['-'] l4
    let l5 := if listIsPfx ['-'] l4 || listIsPfx ['+'] l4 then l4.drop 1 else l4
    let ed := l5.takeWhile rustIsAsciiDigit
    if ed = [] then none else
    let ev : Nat := ed.foldl (fun a c => a * 10 + (c.toNat - 48)) 0
    let mag : Rat := ((ip : Rat) + frac) * (if expNeg then 1 / (10 : Rat) ^ ev else (10 : Rat) ^ ev)
    some (sign * mag, l5.dropWhile rustIsAsciiDigit)
  else
    some (sign * ((ip : Rat) + frac), l3)

mutual

/-- Parse one JSON value at the head of the (whitespace-skipped) input. -/
def parseValueF : Nat → List Char → Option (Json × List Char)
  | 0, _ => none
  | fuel + 1, l =>
    match skipWs l with
    | '{' :: rest =>
      match skipWs rest with
      | '}' :: rest' => some (Json.obj [], rest')
      | rest' => (parseMembersF fuel rest' []).map (fun p => (Json.obj p.1, p.2))
    | '[' :: rest =>
      match skipWs rest with
      | ']' :: rest' => some (Json.arr [], rest')
      | rest' => (parseElemsF fuel rest' []).map (fun p => (Json.arr p.1, p.2))
    | '"' :: rest =>
      (parseStringLit (rest.length + 1) [] rest).map (fun p => (Json.str p.1, p.2))
    | 't' :: rest =>
      if listIsPfx ['r', 'u', 'e'] rest then some (Json.bool true, rest.drop 3) else none
    | 'f' :: rest =>
      if listIsPfx ['a', 'l', 's', 'e'] rest then some (Json.bool false, rest.drop 4) else none
    | 'n' :: rest =>
      if listIsPfx ['u', 'l', 'l'] rest then some (Json.null, rest.drop 3) else none
    | l' => (parseNumberLit l').map (fun p => (Json.num p.1, p.2))

/-- Parse the members of a JSON object (after the opening brace, first key
not yet consumed), accumulating with map-insert semantics. -/
def parseMembersF : Nat → List Char → List (String × Json) →
    Option (List (String × Json) × List Char)
  | 0, _, _ => none
  | fuel + 1, l, acc =>
    match skipWs l with
    | '"' :: rest =>
      match parseStringLit (rest.length + 1) [] rest with
      | none => none
      | some (key, rest1) =>
        match skipWs rest1 with
        | ':' :: rest2 =>
          match parseValueF fuel rest2 with
          | none => none
          | some (v, rest3) =>
            match skipWs rest3 with
            | ',' :: rest4 => parseMembersF fuel rest4 (jsonObjInsert acc key v)
            | '}' :: rest4 => some (jsonObjInsert acc key v, rest4)
            | _ => none
        | _ => none
    | _ => none

/-- Parse the elements of a JSON array (after the opening bracket, first
element not yet consumed). -/
def parseElemsF : Nat → List Char → List Json → Option (List Json × List Char)
  | 0, _, _ => none
  | fuel + 1, l, acc =>
    match parseValueF fuel l with
    | none => none
    | some (v, rest) =>
      match skipWs rest with
      | ',' :: rest' => parseElemsF fuel rest' (acc ++ [v])
      | ']' :: rest' => some (acc ++ [v], rest')
      | _ => none

end

/-- Model of `serde_json::from_str::<Value>`: parse a complete JSON
document, requiring only trailing whitespace after the value. -/
def Json.parse (s : String) : Option Json :=
  match parseValueF (s.data.length + 1) s.data with
  | some (v, rest) => if skipWs rest = [] then some v else none
  | none => none

/-! ## The framework `Event`

The `Event` struct lives in `framework/core/mod.rs`, which is not among
the provided sources. -/

/-- Modelled from the spec: `framework/core` does not ship the `Event`
definition under `src/`, so the struct follows §3 of the spec — a
`timestamp` (u64), `source` tag, `pid`, `comm`, and a free-form `data`
payload. -/
structure Event where
  timestamp : Nat
  source : String
  pid : Nat
  comm : String
  data : Json

/-! ## `analyzers/common.rs` -/

/-- Translation of `common::detect_data_type`. -/
def detect_data_type (data_str : String) : String :=
  if data_str.data.all (fun c => !rustIsControl c || c == '\n' || c == '\r' || c == '\t') then
    "text"
  else
    "binary"

/-! ## `analyzers/ssl_filter.rs` -/

namespace SSLFilter

/-- Translation of `ssl_filter::FilterNode`. -/
inductive FilterNode where
  | and : FilterNode → FilterNode → FilterNode
  | or : FilterNode → FilterNode → FilterNode
  | condition : String → String → String → FilterNode
  | empty : FilterNode

/-- Loop of `FilterExpression::find_operator`: index of the first
occurrence of `op` outside parentheses (depth may go negative, as in the
source's signed counter). -/
def findOperatorGo (op : Char) : Int → Nat → List Char → Option Nat
  | _, _, [] => none
  | depth, i, c :: rest =>
    if c == '(' then findOperatorGo op (depth + 1) (i + 1) rest
    else if c == ')' then findOperatorGo op (depth - 1) (i + 1) rest
    else if c == op && depth == 0 then some i
    else findOperatorGo op depth (i + 1) rest

/-- Translation of `FilterExpression::find_operator`. -/
def findOperator (expr : String) (op : Char) : Option Nat :=
  findOperatorGo op 0 0 expr.data

/-- Translation of `FilterExpression::process_escape_sequences`. -/
def processEscapes : List Char → List Char
  | [] => []
  | ['\\'] => ['\\']
  | '\\' :: c :: rest =>
    if c == 'r' then '\r' :: processEscapes rest
    else if c == 'n' then '\n' :: processEscapes rest
    else if c == 't' then '\t' :: processEscapes rest
    else if c == '\\' then '\\' :: processEscapes rest
    else if c == '"' then '"' :: processEscapes rest
    else '\\' :: processEscapes (c :: rest)
  | c :: rest => c :: processEscapes rest

/-- Translation of `FilterExpression::process_escape_sequences` on strings. -/
def process_escape_sequences (value : String) : String :=
  String.mk (processEscapes value.data)

/-- The operator table of `FilterExpression::parse_condition`, in source
order; searching them in turn over the whole condition string. -/
def operatorTable : List (String × String) :=
  [(">=", "gte"), ("<=", "lte"), ("!=", "not_equal"), ("=", "exact"),
   (">", "gt"), ("<", "lt"), ("~", "contains")]

/-- Search loop of `parse_condition`: the first operator from the table
that occurs anywhere in the string wins. -/
def findCondOperator (expr : String) : List (String × String) → Option (Nat × Nat × String)
  | [] => none
  | (op, name) :: rest =>
    match strFind expr op with
    | some pos => some (pos, op.length, name)
    | none => findCondOperator expr rest

/-- Strips one leading `(` and trailing `)`; models `&expr[1..expr.len()-1]`. -/
def stripParens (s : String) : String :=
  String.mk ((s.data.drop 1).take (s.data.length - 2))

def strEndsWith (s pat : String) : Bool := listIsPfx pat.data.reverse s.data.reverse

mutual

/-- Translation of `FilterExpression::parse_expression`.  The fuel bounds
the recursion (each recursive call strictly shrinks the string, so
`length + 1` always suffices). -/
def parseExpression : Nat → String → FilterNode
  | 0, _ => .empty
  | fuel + 1, expr =>
    let expr := rustTrim expr
    if expr.data = [] then .empty
    else
      match findOperator expr '|' with
      | some pos =>
        .or (parseExpression fuel (String.mk (expr.data.take pos)))
          (parseExpression fuel (String.mk (expr.data.drop (pos + 1))))
      | none =>
        match findOperator expr '&' with
        | some pos =>
          .and (parseExpression fuel (String.mk (expr.data.take pos)))
            (parseExpression fuel (String.mk (expr.data.drop (pos + 1))))
        | none => parseCondition fuel expr

/-- Translation of `FilterExpression::parse_condition`. -/
def parseCondition : Nat → String → FilterNode
  | 0, _ => .empty
  | fuel + 1, expr =>
    let expr := rustTrim expr
    if strStartsWith expr "(" && strEndsWith expr ")" then
      parseExpression fuel (stripParens expr)
    else
      match findCondOperator expr operatorTable with
      | some (pos, opLen, opName) =>
        let field := rustTrim (String.mk (expr.data.take pos))
        let value := rustTrim (String.mk (expr.data.drop (pos + opLen)))
        .condition field opName (process_escape_sequences value)
      | none => .empty

end

/-- Translation of `FilterExpression::parse`. -/
def parse (expression : String) : FilterNode :=
  parseExpression (expression.length + 1) expression

/-- Translation of `FilterExpression::compare_strings`. -/
def compare_strings (actual operator expected : String) : Bool :=
  if operator = "exact" then actual == expected
  else if operator = "not_equal" then actual != expected
  else if operator = "contains" then strContains actual expected
  else if operator = "prefix" then strStartsWith actual expected
  else if operator = "suffix" then strEndsWith actual expected
  else false

/-- Translation of `FilterExpression::compare_numbers`. -/
def compare_numbers (actual : Nat) (operator expected : String) : Bool :=
  match parseU64 expected with
  | some e =>
    if operator = "exact" then actual == e
    else if operator = "not_equal" then actual != e
    else if operator = "gt" then decide (e < actual)
    else if operator = "lt" then decide (actual < e)
    else if operator = "gte" then decide (e ≤ actual)
    else if operator = "lte" then decide (actual ≤ e)
    else false
  | none => false

/-- Translation of `FilterExpression::compare_floats` (numbers are exact
rationals in this model; `f64::EPSILON` is `2⁻⁵²`). -/
def compare_floats (actual : Rat) (operator expected : String) : Bool :=
  match parseF64 expected with
  | some e =>
    if operator = "exact" then decide (|actual - e| < f64Epsilon)
    else if operator = "not_equal" then decide (f64Epsilon ≤ |actual - e|)
    else if operator = "gt" then decide (e < actual)
    else if operator = "lt" then decide (actual < e)
    else if operator = "gte" then decide (e ≤ actual)
    else if operator = "lte" then decide (actual ≤ e)
    else false
  | none => false

/-- Translation of `FilterExpression::evaluate_condition`. -/
def evaluate_condition (field operator expected : String) (data : Json) : Bool :=
  if field = "data.type" then
    match (data.get "data").bind Json.asStr with
    | some dataValue => compare_strings (detect_data_type dataValue) operator expected
    | none => false
  else if field = "is_handshake" then
    (((data.get "is_handshake").bind Json.asBool).getD false) == (expected == "true")
  else if field = "truncated" then
    (((data.get "truncated").bind Json.asBool).getD false) == (expected == "true")
  else if field = "len" ∨ field = "pid" ∨ field = "tid" ∨ field = "uid" then
    match (data.get field).bind Json.asU64 with
    | some numVal => compare_numbers numVal operator expected
    | none => false
  else if field = "latency_ms" then
    match (data.get "latency_ms").bind Json.asF64 with
    | some floatVal => compare_floats floatVal operator expected
    | none => false
  else if field = "timestamp_ns" then
    match (data.get "timestamp_ns").bind Json.asU64 with
    | some ts => compare_numbers ts operator expected
    | none => false
  else if field = "data" ∨ field = "function" ∨ field = "comm" then
    match (data.get field).bind Json.asStr with
    | some v => compare_strings v operator expected
    | none => false
  else false

/-- Translation of `FilterExpression::evaluate_node`. -/
def evaluate_node : FilterNode → Json → Bool
  | .and l r, data => evaluate_node l data && evaluate_node r data
  | .or l r, data => evaluate_node l data || evaluate_node r data
  | .condition field operator value, data => evaluate_condition field operator value data
  | .empty, _ => false

/-- Translation of `FilterExpression::evaluate`. -/
def evaluate (parsed : FilterNode) (data : Json) : Bool := evaluate_node parsed data

end SSLFilter

/-! ## `analyzers/http_filter.rs` -/

namespace HTTPFilter

/-- Translation of `http_filter::FilterNode`. -/
inductive FilterNode where
  | and : List FilterNode → FilterNode
  | or : List FilterNode → FilterNode
  | condition : String → String → String → String → FilterNode
  | empty : FilterNode

/-- Translation of `FilterExpression::parse_condition`. -/
def parse_condition (condition : String) : FilterNode :=
  let condition := rustTrim condition
  if !strContains condition "=" then
    .condition "request" "path" "contains" condition
  else
    match rustSplitN2 condition "=" with
    | [key, value] =>
      let key := rustTrim key
      let value := rustTrim value
      if strContains key "." then
        match rustSplitN2 key "." with
        | [targetRaw, fieldRaw] =>
          let target := rustTrim targetRaw
          let field := rustTrim fieldRaw
          let targetOp :=
            if target = "request" ∨ target = "req" then
              let op :=
                if field = "path_prefix" ∨ field = "path_starts_with" then "prefix"
                else if field = "path_contains" ∨ field = "path_includes" then "contains"
                else if field = "path" ∨ field = "path_exact" then "exact"
                else "exact"
              ("request", op)
            else if target = "response" ∨ target = "resp" ∨ target = "res" then
              ("response", "exact")
            else ("request", "exact")
          .condition targetOp.1 field targetOp.2 value
        | _ =>
          let op :=
            if key = "path_prefix" ∨ key = "path_starts_with" then "prefix"
            else if key = "path_contains" ∨ key = "path_includes" then "contains"
            else if key = "path" ∨ key = "path_exact" then "exact"
            else "exact"
          .condition "request" key op value
      else
        let op :=
          if key = "path_prefix" ∨ key = "path_starts_with" then "prefix"
          else if key = "path_contains" ∨ key = "path_includes" then "contains"
          else if key = "path" ∨ key = "path_exact" then "exact"
          else "exact"
        .condition "request" key op value
    | _ => .empty

/-- Translation of `FilterExpression::parse_and_expression`. -/
def parse_and_expression (expr : String) : FilterNode :=
  let andParts := (rustSplit expr "&").map rustTrim
  if 1 < andParts.length then
    .and (andParts.map parse_condition)
  else
    parse_condition expr

/-- Translation of `FilterExpression::parse_or_expression`. -/
def parse_or_expression (expr : String) : FilterNode :=
  let orParts := (rustSplit expr "|").map rustTrim
  if 1 < orParts.length then
    .or (orParts.map parse_and_expression)
  else
    parse_and_expression expr

/-- Translation of `FilterExpression::parse`. -/
def parse (expression : String) : FilterNode :=
  let trimmed := rustTrim expression
  if trimmed.data = [] then .empty else parse_or_expression trimmed

/-- Translation of `FilterExpression::evaluate_request_condition`. -/
def evaluate_request_condition (field operator value : String) (data : Json) : Bool :=
  if field = "method" ∨ field = "verb" then
    let method := ((data.get "method").bind Json.asStr).getD ""
    rustUppercase method == rustUppercase value
  else if field = "path" ∨ field = "path_exact" then
    let path := ((data.get "path").bind Json.asStr).getD ""
    if operator = "prefix" then strStartsWith path value
    else if operator = "contains" then strContains path value
    else path == value
  else if field = "path_prefix" ∨ field = "path_starts_with" then
    let path := ((data.get "path").bind Json.asStr).getD ""
    strStartsWith path value
  else if field = "path_contains" ∨ field = "path_includes" then
    let path := ((data.get "path").bind Json.asStr).getD ""
    strContains path value
  else if field = "host" ∨ field = "hostname" then
    let host := (((data.get "headers").bind (fun h => h.get "host")).bind Json.asStr).getD ""
    host == value
  else if field = "body" ∨ field = "body_contains" then
    let body := ((data.get "body").bind Json.asStr).getD ""
    strContains body value
  else
    let path := ((data.get "path").bind Json.asStr).getD ""
    match strFind path "?" with
    | some queryStart =>
      let query := String.mk (path.data.drop (queryStart + 1))
      strContains query (field ++ "=" ++ value)
    | none => false

/-- Translation of `FilterExpression::evaluate_response_condition`. -/
def evaluate_response_condition (field _operator value : String) (data : Json) : Bool :=
  if field = "status_code" ∨ field = "status" ∨ field = "code" then
    let statusCode := ((data.get "status_code").bind Json.asU64).getD 0
    match parseU64 value with
    | some target => statusCode == target
    | none => false
  else if field = "status_text" ∨ field = "status_message" then
    let statusText := ((data.get "status_text").bind Json.asStr).getD ""
    strContains (rustLowercase statusText) (rustLowercase value)
  else if field = "content_type" ∨ field = "content-type" then
    let ct := (((data.get "headers").bind (fun h => h.get "content-type")).bind Json.asStr).getD ""
    strContains ct value
  else if field = "server" then
    let server := (((data.get "headers").bind (fun h => h.get "server")).bind Json.asStr).getD ""
    strContains server value
  else if field = "body" ∨ field = "body_contains" then
    let body := ((data.get "body").bind Json.asStr).getD ""
    strContains body value
  else
    let hv := (((data.get "headers").bind (fun h => h.get field)).bind Json.asStr).getD ""
    strContains hv value

/-- Translation of `FilterExpression::evaluate_condition`. -/
def evaluate_condition (target field operator value : String) (data : Json) : Bool :=
  let messageType := ((data.get "message_type").bind Json.asStr).getD ""
  let matchesTarget :=
    if target = "request" then messageType == "request"
    else if target = "response" then messageType == "response"
    else false
  if !matchesTarget then false
  else if target = "request" then evaluate_request_condition field operator value data
  else if target = "response" then evaluate_response_condition field operator value data
  else false

mutual

/-- Translation of `FilterExpression::evaluate_node`. -/
def evaluate_node : FilterNode → Json → Bool
  | .empty, _ => false
  | .and conditions, data => evalAll conditions data
  | .or conditions, data => evalAny conditions data
  | .condition target field operator value, data =>
    evaluate_condition target field operator value data

/-- `conditions.iter().all(...)` over filter nodes, short-circuiting. -/
def evalAll : List FilterNode → Json → Bool
  | [], _ => true
  | c :: rest, data => evaluate_node c data && evalAll rest data

/-- `conditions.iter().any(...)` over filter nodes, short-circuiting. -/
def evalAny : List FilterNode → Json → Bool
  | [], _ => false
  | c :: rest, data => evaluate_node c data || evalAny rest data

end

/-- Translation of `FilterExpression::evaluate`. -/
def evaluate (parsed : FilterNode) (data : Json) : Bool := evaluate_node parsed data

/-- The per-event decision of `HTTPFilter::process` (the body of its
`filter_map` closure, with the metrics side channel elided): `none` means
the event is dropped from the stream. -/
def processEvent (filters : List FilterNode) (event : Event) : Option Event :=
  let shouldFilter :=
    if filters.isEmpty then false
    else if event.source != "http_parser" then false
    else filters.any (fun f => evaluate f event.data)
  if shouldFilter then none else some event

end HTTPFilter

/-! ## `analyzers/sse_processor.rs` -/

namespace SSEProcessor

/-- Translation of `sse_processor::SSEEvent`. -/
structure SSEEvent where
  event : Option String
  data : Option String
  id : Option String
  parsed_data : Option Json
  raw_data : Option String

/-- Translation of `sse_processor::SSEAccumulator`. -/
structure SSEAccumulator where
  message_id : Option String
  accumulated_text : String
  accumulated_json : String
  events : List SSEEvent
  is_complete : Bool
  last_update : Nat
  has_message_start : Bool
  start_time : Nat
  end_time : Nat

/-- Translation of `SSEProcessor::is_sse_data`. -/
def is_sse_data (data : String) : Bool :=
  let has_sse_patterns := strContains data "event:" && strContains data "data:"
  let has_sse_content_type := strContains data "text/event-stream"
  let has_chunked_sse := strContains data "Transfer-Encoding: chunked" &&
    (strContains data "event:" || strContains data "data:")
  let has_sse_data_only := strContains data "data:" &&
    (strContains data "\r\n\r\n" || strContains data "\n\n")
  has_sse_patterns || has_sse_content_type || has_chunked_sse || has_sse_data_only

/-- Loop of `SSEProcessor::clean_chunked_content`: a trimmed pure-hex line
is a chunk size; zero terminates; otherwise the following line is content
and the cursor advances past both. -/
def cleanChunkedGo : List String → List String
  | [] => []
  | l :: rest =>
    let line := rustTrim l
    if line.data ≠ [] && line.data.all rustIsAsciiHexDigit then
      if (fromStrRadix16 line.data).getD 0 = 0 then []
      else
        match rest with
        | [] => []
        | c :: rest2 => c :: cleanChunkedGo rest2
    else cleanChunkedGo rest

/-- Translation of `SSEProcessor::clean_chunked_content`. -/
def clean_chunked_content (content : String) : String :=
  strJoin (cleanChunkedGo (rustSplit content "\r\n")) "\n"

/-- Per-line state of the block loop in `parse_sse_events_from_chunk`:
the `event:` value, the collected `data:` lines, and the `id:` value. -/
def blockLineStep (st : Option String × List String × Option String) (lraw : String) :
    Option String × List String × Option String :=
  let line := rustTrim lraw
  if strStartsWith line "event:" then
    (some (rustTrim (strDropChars line 6)), st.2.1, st.2.2)
  else if strStartsWith line "data:" then
    (st.1, st.2.1 ++ [rustTrim (strDropChars line 5)], st.2.2)
  else if strStartsWith line "id:" then
    (st.1, st.2.1, some (rustTrim (strDropChars line 3)))
  else st

/-- One block of `SSEProcessor::parse_sse_events_from_chunk`: skip blocks
that trim to nothing, join the `data:` lines, attempt a JSON parse, and
keep the block only when it carried an `event:` or `data:` line. -/
def parseBlock (block : String) : Option SSEEvent :=
  if (rustTrim block).data = [] then none
  else
    let st := (rustSplit block "\n").foldl blockLineStep (none, [], none)
    let ev : SSEEvent :=
      match st.2.1 with
      | [] => { event := st.1, data := none, id := st.2.2, parsed_data := none, raw_data := none }
      | dataLines =>
        let combined := strJoin dataLines "\n"
        match Json.parse combined with
        | some parsed =>
          { event := st.1, data := some combined, id := st.2.2,
            parsed_data := some parsed, raw_data := none }
        | none =>
          { event := st.1, data := some combined, id := st.2.2,
            parsed_data := none, raw_data := some combined }
    if ev.event.isSome || ev.data.isSome then some ev else none

/-- Translation of `SSEProcessor::parse_sse_events_from_chunk`. -/
def parse_sse_events_from_chunk (chunk_content : String) : List SSEEvent :=
  (rustSplit chunk_content "\n\n").filterMap parseBlock

/-- Translation of `SSEProcessor::parse_sse_events`. -/
def parse_sse_events (data : String) : List SSEEvent :=
  parse_sse_events_from_chunk (clean_chunked_content data)

/-- Translation of `SSEProcessor::extract_message_id`. -/
def extract_message_id : List SSEEvent → Option String
  | [] => none
  | e :: rest =>
    match e.event with
    | some t =>
      if t = "message_start" then
        match e.parsed_data.bind (fun p =>
            (p.get "message").bind (fun m => (m.get "id").bind Json.asStr)) with
        | some idStr => some idStr
        | none => extract_message_id rest
      else extract_message_id rest
    | none => extract_message_id rest

/-- `pid` of the triggering event as read by the processor. -/
def eventPid (event : Event) : Nat := ((event.data.get "pid").bind Json.asU64).getD 0

/-- `tid` of the triggering event as read by the processor. -/
def eventTid (event : Event) : Nat := ((event.data.get "tid").bind Json.asU64).getD 0

/-- Translation of `SSEProcessor::generate_connection_id`. -/
def generate_connection_id (event : Event) (sse_events : List SSEEvent) : String :=
  let pid := eventPid event
  let tid := eventTid event
  match extract_message_id sse_events with
  | some messageId => toString pid ++ ":" ++ toString tid ++ ":" ++ messageId
  | none =>
    let window := event.timestamp / 600000000000
    toString pid ++ ":" ++ toString tid ++ ":" ++ toString window

/-- The event-scanning loop of `SSEProcessor::is_sse_complete`. -/
def hasStopOrError : List SSEEvent → Bool
  | [] => false
  | e :: rest =>
    match e.event with
    | some t =>
      if t = "message_stop" then true
      else if t = "error" then true
      else hasStopOrError rest
    | none => hasStopOrError rest

/-- Translation of `SSEProcessor::is_sse_complete`. -/
def is_sse_complete (accumulator : SSEAccumulator) : Bool :=
  if hasStopOrError accumulator.events then true
  else
    decide (50000 < rustStrLen accumulator.accumulated_text) ||
    decide (50000 < rustStrLen accumulator.accumulated_json)

/-- The statistics loop of `SSEProcessor::has_meaningful_content`:
`(has_content_deltas, has_message_start, metadata_only_count)`. -/
def meaningfulStats (st : Bool × Bool × Nat) (e : SSEEvent) : Bool × Bool × Nat :=
  match e.event with
  | some t =>
    if t = "content_block_delta" then (true, st.2.1, st.2.2)
    else if t = "message_start" then (st.1, true, st.2.2)
    else if t = "message_stop" ∨ t = "message_delta" ∨ t = "ping" ∨
        t = "content_block_stop" ∨ t = "content_block_start" then
      (st.1, st.2.1, st.2.2 + 1)
    else st
  | none => st

/-- Translation of `SSEProcessor::has_meaningful_content`. -/
def has_meaningful_content (accumulator : SSEAccumulator) : Bool :=
  if accumulator.accumulated_text.data ≠ [] ∨ accumulator.accumulated_json.data ≠ [] then
    true
  else
    let st := accumulator.events.foldl meaningfulStats (false, false, 0)
    st.1 || (st.2.1 && decide (3 < accumulator.events.length) &&
      decide (st.2.2 < accumulator.events.length))

/-- One iteration of the loop in `SSEProcessor::accumulate_content`:
append the event and fold its content into the accumulator. -/
def accumulateEvent (accumulator : SSEAccumulator) (e : SSEEvent) : SSEAccumulator :=
  let acc := { accumulator with events := accumulator.events ++ [e] }
  match e.event with
  | some t =>
    if t = "message_start" then
      let acc := { acc with has_message_start := true }
      if acc.message_id.isNone then { acc with message_id := extract_message_id [e] }
      else acc
    else if t = "content_block_delta" then
      match e.parsed_data with
      | some parsed =>
        match parsed.get "delta" with
        | some delta =>
          let text :=
            if (delta.get "type").bind Json.asStr == some "text_delta" then
              ((delta.get "text").bind Json.asStr).getD ""
            else if (delta.get "type").bind Json.asStr == some "thinking_delta" then
              ((delta.get "thinking").bind Json.asStr).getD ""
            else ""
          let acc :=
            if text.data ≠ [] then
              { acc with accumulated_text := acc.accumulated_text ++ text }
            else acc
          match (delta.get "partial_json").bind Json.asStr with
          | some partialJson =>
            { acc with accumulated_json := acc.accumulated_json ++ partialJson }
          | none => acc
        | none => acc
      | none => acc
    else acc
  | none => acc

/-- Translation of `SSEProcessor::accumulate_content`. -/
def accumulate_content (accumulator : SSEAccumulator) (events : List SSEEvent) :
    SSEAccumulator :=
  events.foldl accumulateEvent accumulator

end SSEProcessor

namespace SSEProcessor

/-- JSON string escaping as performed by `serde_json` when serializing. -/
def jsonEscapeChar (c : Char) : List Char :=
  if c = '"' then ['\\', '"']
  else if c = '\\' then ['\\', '\\']
  else if c = '\n' then ['\\', 'n']
  else if c = '\r' then ['\\', 'r']
  else if c = '\t' then ['\\', 't']
  else if c = '\x08' then ['\\', 'b']
  else if c = '\x0c' then ['\\', 'f']
  else if c.toNat < 0x20 then
    ['\\', 'u', '0', '0',
     (Nat.toDigits 16 c.toNat).headD '0',
     (Nat.toDigits 16 (c.toNat % 16)).headD '0']
  else [c]

def jsonEscape (s : String) : String :=
  "\"" ++ String.mk (s.data.flatMap jsonEscapeChar) ++ "\""

/-- Rendering of a JSON number.  Models `serde_json`'s numeric output on
the integers; no property proved below inspects this text. -/
def jsonRenderNum (q : Rat) : String :=
  if q.den = 1 then toString q.num else toString q.num ++ "/" ++ toString q.den

mutual

/-- Model of `serde_json::to_string_pretty` (two-space indentation).  No
claim below depends on the exact rendered text. -/
def jsonPretty : Nat → Json → String
  | _, .null => "null"
  | _, .bool b => if b then "true" else "false"
  | _, .num q => jsonRenderNum q
  | _, .str s => jsonEscape s
  | _, .arr [] => "[]"
  | ind, .arr (x :: xs) =>
    "[\n" ++ jsonPrettyElems (ind + 2) (x :: xs) ++ "\n" ++
      String.mk (List.replicate ind ' ') ++ "]"
  | _, .obj [] => "{}"
  | ind, .obj (f :: fs) =>
    "\x7b\n" ++ jsonPrettyFields (ind + 2) (f :: fs) ++ "\n" ++
      String.mk (List.replicate ind ' ') ++ "\x7d"

def jsonPrettyElems : Nat → List Json → String
  | _, [] => ""
  | ind, [x] => String.mk (List.replicate ind ' ') ++ jsonPretty ind x
  | ind, x :: y :: xs =>
    String.mk (List.replicate ind ' ') ++ jsonPretty ind x ++ ",\n" ++
      jsonPrettyElems ind (y :: xs)

def jsonPrettyFields : Nat → List (String × Json) → String
  | _, [] => ""
  | ind, [(k, v)] =>
    String.mk (List.replicate ind ' ') ++ jsonEscape k ++ ": " ++ jsonPretty ind v
  | ind, (k, v) :: g :: fs =>
    String.mk (List.replicate ind ' ') ++ jsonEscape k ++ ": " ++ jsonPretty ind v ++
      ",\n" ++ jsonPrettyFields ind (g :: fs)

end

/-- `serde_json::to_string_pretty` at top level. -/
def to_string_pretty (v : Json) : String := jsonPretty 0 v

/-- An optional string as a JSON value (`serde_json::json!` on `Option`). -/
def optStr : Option String → Json
  | some s => .str s
  | none => .null

/-- Modelled from the spec: `SSEProcessorEvent::new` / `to_event` live in
`analyzers/event.rs`, which is not under `src/`.  Following §4.2.4
("Merged Event"), the emitted Event has `source = "sse_processor"`,
`timestamp = start_time`, `pid`/`comm` inherited from the triggering
Event, and a payload carrying the connection id, optional message id,
start and end time, the literal source `"ssl"`, function name, tid, the
accumulated json and text, total size, event count, `has_message_start`,
and the full parsed SSE event list. -/
def sseProcessorEventToEvent (connection_id : String) (message_id : Option String)
    (start_time end_time : Nat) (src fn : String) (tid : Nat)
    (json_content text_content : String) (total_size event_count : Nat)
    (has_message_start : Bool) (sse_events_json : List Json)
    (original : Event) : Event :=
  { timestamp := start_time
    source := "sse_processor"
    pid := original.pid
    comm := original.comm
    data := Json.obj
      [("connection_id", .str connection_id),
       ("message_id", optStr message_id),
       ("start_time", .num start_time),
       ("end_time", .num end_time),
       ("source", .str src),
       ("function", .str fn),
       ("tid", .num tid),
       ("json_content", .str json_content),
       ("text", .str text_content),
       ("total_size", .num total_size),
       ("event_count", .num event_count),
       ("has_message_start", .bool has_message_start),
       ("sse_events", .arr sse_events_json)] }

/-- Translation of `SSEProcessor::create_merged_event` (its final
`SSEProcessorEvent` construction is the spec-modelled
`sseProcessorEventToEvent`). -/
def create_merged_event (connection_id : String) (accumulator : SSEAccumulator)
    (original_event : Event) : Event :=
  let json_content :=
    if accumulator.accumulated_json.data ≠ [] then
      match Json.parse accumulator.accumulated_json with
      | some parsed => to_string_pretty parsed
      | none => accumulator.accumulated_json
    else ""
  let text_content := accumulator.accumulated_text
  let sse_events_json : List Json := accumulator.events.map (fun e =>
    Json.obj [("event", optStr e.event), ("data", optStr e.data), ("id", optStr e.id),
      ("parsed_data", e.parsed_data.getD .null), ("raw_data", optStr e.raw_data)])
  let total_size := rustStrLen json_content + rustStrLen text_content
  let fn := (((original_event.data.get "function").getD (.str "unknown")).asStr).getD "unknown"
  let tid := (((original_event.data.get "tid").getD (.num 0)).asU64).getD 0
  sseProcessorEventToEvent connection_id accumulator.message_id
    accumulator.start_time accumulator.end_time "ssl" fn tid
    json_content text_content total_size accumulator.events.length
    accumulator.has_message_start sse_events_json original_event

/-- The processor's buffer map `connection_key → accumulator`.  The Rust
`HashMap` is modelled as an association list in insertion order (its
iteration order is unspecified in Rust; the claims proved below involve at
most one live accumulator, where the two coincide). -/
def Buffers := List (String × SSEAccumulator)

def bufLookup (bufs : Buffers) (key : String) : Option SSEAccumulator :=
  match (List.find? (fun (p : String × SSEAccumulator) => p.1 == key) bufs) with
  | some p => some p.2
  | none => none

def bufContainsKey (bufs : Buffers) (key : String) : Bool :=
  (List.find? (fun (p : String × SSEAccumulator) => p.1 == key) bufs).isSome

/-- `HashMap::entry(..).or_insert_with(..)` followed by mutation: replace
the binding in place, or append a new one. -/
def bufUpsert (bufs : Buffers) (key : String) (acc : SSEAccumulator) : Buffers :=
  match bufs with
  | [] => [(key, acc)]
  | (k, a) :: rest =>
    if k == key then (k, acc) :: rest else (k, a) :: bufUpsert rest key acc

/-- `HashMap::remove`. -/
def bufErase (bufs : Buffers) (key : String) : Buffers :=
  match bufs with
  | [] => []
  | (k, a) :: rest => if k == key then rest else (k, a) :: bufErase rest key

/-- The `has_content_potential` classification of one SSE event inside
`SSEProcessor::process`. -/
def content_potential (e : SSEEvent) : Bool :=
  match e.event with
  | some t =>
    if t = "message_start" ∨ t = "content_block_start" ∨ t = "content_block_delta" then true
    else if t = "message_stop" ∨ t = "content_block_stop" then true
    else if t = "message_delta" ∨ t = "ping" then false
    else true
  | none => true

/-- The all-metadata test of `should_skip_chunk` inside
`SSEProcessor::process`. -/
def ping_or_message_delta (e : SSEEvent) : Bool :=
  match e.event with
  | some t => t == "ping" || t == "message_delta"
  | none => false

/-- The accumulator-reuse scan inside `SSEProcessor::process`: the first
open accumulator whose key extends `pfx` and that holds no `message_stop`
yet. -/
def scanOpenAccumulator (pfx : String) : Buffers → Option String
  | [] => none
  | (existingId, acc) :: rest =>
    if strStartsWith existingId pfx && !acc.is_complete &&
        !(acc.events.any (fun e => e.event == some "message_stop")) then
      some existingId
    else scanOpenAccumulator pfx rest

/-- The `final_connection_id` computation inside `SSEProcessor::process`. -/
def resolve_connection_id (bufs : Buffers) (event : Event)
    (sse_events : List SSEEvent) : String :=
  let connection_id := generate_connection_id event sse_events
  let pid := eventPid event
  let tid := eventTid event
  match extract_message_id sse_events with
  | some messageId => toString pid ++ ":" ++ toString tid ++ ":" ++ messageId
  | none =>
    match scanOpenAccumulator (toString pid ++ ":" ++ toString tid ++ ":") bufs with
    | some existingId => existingId
    | none => connection_id

/-- A fresh accumulator, as built by the `or_insert_with` closure. -/
def freshAccumulator (ts : Nat) : SSEAccumulator :=
  { message_id := none
    accumulated_text := ""
    accumulated_json := ""
    events := []
    is_complete := false
    last_update := ts
    has_message_start := false
    start_time := ts
    end_time := ts }

/-- The tail of the per-event closure of `SSEProcessor::process`, from the
completion check on: when the (already accumulated) accumulator is
complete it is dropped from the buffers and a merged event is emitted if
it holds meaningful content; otherwise it is stored and nothing is
emitted. -/
def finalize_step (bufs : Buffers) (final_id : String) (event : Event)
    (acc : SSEAccumulator) : Buffers × Option Event :=
  if is_sse_complete acc then
    (bufErase bufs final_id,
     if has_meaningful_content acc then some (create_merged_event final_id acc event)
     else none)
  else (bufUpsert bufs final_id acc, none)

/-- Translation of the per-event closure of `SSEProcessor::process`
(`stream.filter_map`): given the shared buffer map and one incoming
event, produce the updated map and the optional emitted event. -/
def processEvent (bufs : Buffers) (event : Event) : Buffers × Option Event :=
  if event.source != "ssl" then (bufs, some event)
  else
    match (event.data.get "data").bind Json.asStr with
    | none => (bufs, some event)
    | some data_str =>
      if !is_sse_data data_str then (bufs, some event)
      else
        let sse_events := parse_sse_events data_str
        if sse_events.isEmpty then (bufs, some event)
        else
          let has_content_potential := sse_events.any content_potential
          let should_skip_chunk :=
            !has_content_potential && sse_events.all ping_or_message_delta
          if should_skip_chunk &&
              !(bufContainsKey bufs (generate_connection_id event sse_events)) then
            (bufs, none)
          else
            let final_id := resolve_connection_id bufs event sse_events
            let acc0 := (bufLookup bufs final_id).getD (freshAccumulator event.timestamp)
            let acc1 := { acc0 with last_update := event.timestamp,
                                    end_time := event.timestamp }
            let acc2 := accumulate_content acc1 sse_events
            finalize_step bufs final_id event acc2

/-- `processEvent` folded over a whole input stream, collecting each
event's optional output. -/
def processAll : Buffers → List Event → Buffers × List (Option Event)
  | bufs, [] => (bufs, [])
  | bufs, e :: rest =>
    let r1 := processEvent bufs e
    let r2 := processAll r1.1 rest
    (r2.1, r1.2 :: r2.2)

end SSEProcessor

/-! ## `analyzers/http_parser.rs` -/

/-- Model of Rust `str::splitn(3, ' ')`. -/
def rustSplitN3 (s sep : String) : List String :=
  match rustSplitN2 s sep with
  | [a, b] =>
    match rustSplitN2 b sep with
    | [c, d] => [a, c, d]
    | _ => [a, b]
  | r => r

/-- Model of Rust `str::parse::<u16>`. -/
def parseU16 (s : String) : Option Nat :=
  match parseU64 s with
  | some v => if v < 2 ^ 16 then some v else none
  | none => none

namespace HTTPParser

/-- Translation of `http_parser::HTTPMessageType`. -/
inductive HTTPMessageType where
  | request : HTTPMessageType
  | response : HTTPMessageType

/-- Translation of `http_parser::HTTPMessage`. -/
structure HTTPMessage where
  message_type : HTTPMessageType
  first_line : String
  headers : List (String × String)
  body : Option String
  raw_data : String
  method : Option String
  path : Option String
  protocol : Option String
  status_code : Option Nat
  status_text : Option String

/-- Translation of `HTTPParser::is_http_data`. -/
def is_http_data (data : String) : Bool :=
  let has_http_request := strContains data "HTTP/1." &&
    (strContains data "GET " || strContains data "POST " ||
     strContains data "PUT " || strContains data "DELETE " ||
     strContains data "HEAD " || strContains data "OPTIONS " ||
     strContains data "PATCH ")
  let has_http_response := strStartsWith data "HTTP/1." || strContains data "\r\nHTTP/1."
  let has_http_headers := strContains data "Content-Type:" ||
    strContains data "content-type:" || strContains data "Host:" ||
    strContains data "host:" || strContains data "User-Agent:" ||
    strContains data "user-agent:"
  has_http_request || has_http_response || has_http_headers

/-- `HashMap::insert` on the headers map, modelled on an association list
in insertion order. -/
def insertHeader (hs : List (String × String)) (key value : String) :
    List (String × String) :=
  match hs with
  | [] => [(key, value)]
  | (k, v) :: rest =>
    if k == key then (k, value) :: rest else (k, v) :: insertHeader rest key value

/-- The header loop of `HTTPParser::parse_http_message` over
`lines.iter().enumerate().skip(1)`: collect `key: value` lines until the
first empty line, whose successor index is the body start. -/
def headerLoop : List String → Nat → List (String × String) →
    List (String × String) × Option Nat
  | [], _, hs => (hs, none)
  | l :: rest, i, hs =>
    if l.data = [] then (hs, some (i + 1))
    else
      match strFind l ":" with
      | some colonPos =>
        headerLoop rest (i + 1)
          (insertHeader hs (rustLowercase (rustTrim (String.mk (l.data.take colonPos))))
            (rustTrim (String.mk (l.data.drop (colonPos + 1)))))
      | none => headerLoop rest (i + 1) hs

/-- Translation of `HTTPParser::parse_http_message`. -/
def parse_http_message (data : String) : Option HTTPMessage :=
  let lines := rustSplit data "\r\n"
  match lines with
  | [] => none
  | first_line :: restLines =>
    let startInfo :
        HTTPMessageType × Option String × Option String × Option String ×
          Option Nat × Option String :=
      if strStartsWith first_line "HTTP/" then
        let parts := rustSplitN3 first_line " "
        match parts with
        | [p0, p1, p2] =>
          (.response, none, none, some p0, parseU16 p1, some p2)
        | [_, p1] =>
          -- `parts.len() >= 2` without a third part: status text stays unset
          (.response, none, none, some (parts.headD ""), parseU16 p1, none)
        | _ => (.response, none, none, none, none, none)
      else
        let parts := rustSplitN3 first_line " "
        match parts with
        | [p0, p1, p2] => (.request, some p0, some p1, some p2, none, none)
        | _ => (.request, none, none, none, none, none)
    let hdrs := headerLoop restLines 1 []
    let headers := hdrs.1
    let body :=
      match hdrs.2 with
      | some start =>
        if start < lines.length then
          let body_content := strJoin (lines.drop start) "\r\n"
          if (rustTrim body_content).data ≠ [] then some body_content else none
        else none
      | none => none
    some
      { message_type := startInfo.1
        first_line := first_line
        headers := headers
        body := body
        raw_data := data
        method := startInfo.2.1
        path := startInfo.2.2.1
        protocol := startInfo.2.2.2.1
        status_code := startInfo.2.2.2.2.1
        status_text := startInfo.2.2.2.2.2 }

/-- An optional string as JSON. -/
def optStr : Option String → Json
  | some s => .str s
  | none => .null

/-- An optional number as JSON. -/
def optNum : Option Nat → Json
  | some n => .num n
  | none => .null

/-- Modelled from the spec: `HTTPEvent::new` / `to_event` live in
`analyzers/event.rs`, which is not under `src/`.  Following §3 and §4.2.5,
the emitted Event has `source = "http_parser"`, inherits timestamp, pid and
comm from the original SSL event, and carries the parsed message record as
its payload. -/
def httpEventToEvent (tid : Nat) (message_type : String) (m : HTTPMessage)
    (total_size : Nat) (has_body is_chunked : Bool) (content_length : Option Nat)
    (include_raw_data : Bool) (original : Event) : Event :=
  { timestamp := original.timestamp
    source := "http_parser"
    pid := original.pid
    comm := original.comm
    data := Json.obj
      ([("tid", .num tid),
        ("message_type", .str message_type),
        ("first_line", .str m.first_line),
        ("method", optStr m.method),
        ("path", optStr m.path),
        ("protocol", optStr m.protocol),
        ("status_code", optNum m.status_code),
        ("status_text", optStr m.status_text),
        ("headers", Json.obj (m.headers.map (fun h => (h.1, Json.str h.2)))),
        ("body", optStr m.body),
        ("total_size", .num total_size),
        ("has_body", .bool has_body),
        ("is_chunked", .bool is_chunked),
        ("content_length", optNum content_length)] ++
       (if include_raw_data then [("raw_data", Json.str m.raw_data)] else [])) }

/-- Translation of `HTTPParser::create_http_event` (the final
`HTTPEvent` construction is the spec-modelled `httpEventToEvent`). -/
def create_http_event (tid : Nat) (parsed_message : HTTPMessage)
    (original_event : Event) (include_raw_data : Bool) : Event :=
  let message_type_str :=
    match parsed_message.message_type with
    | .request => "request"
    | .response => "response"
  let content_length :=
    match List.find? (fun (h : String × String) => h.1 == "content-length")
        parsed_message.headers with
    | some h => parseU64 h.2
    | none => none
  let is_chunked :=
    match List.find? (fun (h : String × String) => h.1 == "transfer-encoding")
        parsed_message.headers with
    | some h => strContains (rustLowercase h.2) "chunked"
    | none => false
  let has_body := parsed_message.body.isSome
  let total_size := rustStrLen parsed_message.first_line +
    (parsed_message.headers.map (fun h => rustStrLen h.1 + rustStrLen h.2 + 4)).sum +
    (match parsed_message.body with | some b => rustStrLen b | none => 0) + 4
  httpEventToEvent tid message_type_str parsed_message total_size has_body
    is_chunked content_length include_raw_data original_event

/-- Translation of `HTTPParser::handle_ssl_event`. -/
def handle_ssl_event (event : Event) (include_raw_data : Bool) : Option Event :=
  match (event.data.get "data").bind Json.asStr with
  | none => some event
  | some data_str =>
    if is_http_data data_str then
      match parse_http_message data_str with
      | some parsed_message =>
        let tid := ((event.data.get "tid").bind Json.asU64).getD 0
        some (create_http_event tid parsed_message event include_raw_data)
      | none => some event
    else some event

/-- Translation of the per-event closure of `HTTPParser::process`. -/
def processEvent (include_raw_data : Bool) (event : Event) : Option Event :=
  if event.source == "ssl" then handle_ssl_event event include_raw_data
  else some event

end HTTPParser

/-! ## `analyzers/auth_header_remover.rs` -/

namespace AuthHeaderRemover

/-- The default redaction list built by `AuthHeaderRemover::new`. -/
def defaultAuthHeaders : List String :=
  ["authorization", "x-api-key", "x-auth-token", "bearer", "token",
   "x-access-token", "x-session-token", "cookie", "set-cookie"]

/-- The key test of `remove_auth_headers`: the header key equals some
configured name after lower-casing both sides. -/
def shouldRemoveHeader (auth_headers : List String) (key : String) : Bool :=
  auth_headers.any (fun a => rustLowercase key == rustLowercase a)

/-- The header-map rewrite of `remove_auth_headers`: drop every matching
key of a JSON object; leave any non-object value alone (as
`as_object_mut` would). -/
def filterHeadersValue (auth_headers : List String) : Json → Json
  | .obj hs => .obj (hs.filter (fun h => !shouldRemoveHeader auth_headers h.1))
  | v => v

/-- Translation of `AuthHeaderRemover::remove_auth_headers`. -/
def remove_auth_headers (auth_headers : List String) (event_data : Json) : Json :=
  if ((event_data.get "message_type").bind Json.asStr).isNone then event_data
  else
    match event_data with
    | .obj fields =>
      .obj (fields.map (fun f =>
        if f.1 == "headers" then (f.1, filterHeadersValue auth_headers f.2) else f))
    | other => other

/-- Translation of the per-event closure of `AuthHeaderRemover::process`. -/
def processEvent (e : Event) : Event :=
  if e.source == "http_parser" then
    { e with data := remove_auth_headers defaultAuthHeaders e.data }
  else e

end AuthHeaderRemover

/-! ## `core/timestamp.rs` and `analyzers/timestamp_normalizer.rs` -/

/-- Translation of `timestamp::boot_ns_to_epoch_ms`.  The cached boot time
(`get_boot_time_secs`, resolved once per process from `/proc`) is an
input parameter `boot_time_secs`; the final `as u64` cast of the `i64` sum
is the two's-complement reinterpretation, i.e. reduction modulo `2⁶⁴`. -/
def boot_ns_to_epoch_ms (boot_time_secs : Int) (ns_since_boot : Nat) : Nat :=
  let boot_time_ms : Int := boot_time_secs * 1000
  let offset_ms : Int := (ns_since_boot / 1000000 : Nat)
  ((boot_time_ms + offset_ms).emod (2 ^ 64)).toNat

/-- Translation of the per-event closure of `TimestampNormalizer::process`. -/
def timestampNormalizerStep (boot_time_secs : Int) (e : Event) : Event :=
  { e with timestamp := boot_ns_to_epoch_ms boot_time_secs e.timestamp }

/-! ## `runners/agent.rs`

`AgentRunner::run` is modelled on finite streams: each child runner is
represented by its `run()` outcome (an error or the list of events its
stream yields) and each global analyzer by a function on event lists that
may fail.  `select_all` merges the children's streams in arrival order,
which for this model is represented by concatenation; no property proved
below depends on the interleaving. -/

namespace AgentRunner

/-- The runner-starting loop of `AgentRunner::run`: the first child error
propagates unchanged (`runner.run().await?`). -/
def collectStreams : List (Except String (List Event)) →
    Except String (List (List Event))
  | [] => .ok []
  | r :: rest =>
    match r with
    | .error e => .error e
    | .ok evs =>
      match collectStreams rest with
      | .error e => .error e
      | .ok l => .ok (evs :: l)

/-- The analyzer loop of `AgentRunner::run`: each analyzer error is
wrapped as `"Global analyzer error: …"`. -/
def applyAnalyzers : List (List Event → Except String (List Event)) →
    List Event → Except String (List Event)
  | [], evs => .ok evs
  | a :: rest, evs =>
    match a evs with
    | .ok evs' => applyAnalyzers rest evs'
    | .error e => .error ("Global analyzer error: " ++ e)

/-- Translation of `AgentRunner::run`. -/
def run (runners : List (Except String (List Event)))
    (analyzers : List (List Event → Except String (List Event))) :
    Except String (List Event) :=
  if runners.isEmpty then .error "No runners configured for AgentRunner"
  else
    match collectStreams runners with
    | .error e => .error e
    | .ok streams => applyAnalyzers analyzers streams.flatten

end AgentRunner

/-! ## Helper lemmas -/

lemma listIsPfx_eq_false_of_listContainsSub_eq_false {l sep : List Char}
    (h : listContainsSub l sep = false) : listIsPfx sep l = false := by
  cases l with
  | nil =>
    cases sep with
    | nil => simp [listContainsSub] at h
    | cons c cs => rfl
  | cons c cs =>
    simp only [listContainsSub, Bool.or_eq_false_iff] at h
    exact h.1

lemma listContainsSub_tail_eq_false {c : Char} {l sep : List Char}
    (h : listContainsSub (c :: l) sep = false) : listContainsSub l sep = false := by
  simp only [listContainsSub, Bool.or_eq_false_iff] at h
  exact h.2

lemma splitGo_no_occurrence (sep : List Char) :
    ∀ fuel l acc, l.length ≤ fuel → listContainsSub l sep = false →
      splitGo sep fuel l acc = [acc.reverse ++ l] := by
  intro fuel
  induction fuel with
  | zero =>
    intro l acc hlen _
    have : l = [] := List.eq_nil_of_length_eq_zero (Nat.le_zero.mp hlen)
    subst this
    simp [splitGo]
  | succ n ih =>
    intro l acc hlen hocc
    cases l with
    | nil => simp [splitGo]
    | cons c rest =>
      have hpfx := listIsPfx_eq_false_of_listContainsSub_eq_false hocc
      have hlen' : rest.length ≤ n := by
        simpa using hlen
      have hrec := ih rest (c :: acc) hlen' (listContainsSub_tail_eq_false hocc)
      simp only [splitGo, hpfx, Bool.and_false, Bool.false_eq_true, if_false, hrec]
      simp

lemma rustSplit_of_not_contains {s sep : String} (h : strContains s sep = false) :
    rustSplit s sep = [s] := by
  unfold rustSplit
  rw [splitGo_no_occurrence sep.data (s.data.length + 1) s.data [] (Nat.le_succ _) h]
  simp

lemma cleanChunkedGo_singleton (x : String) : SSEProcessor.cleanChunkedGo [x] = [] := by
  simp only [SSEProcessor.cleanChunkedGo]
  split
  · split
    · rfl
    · rfl
  · rfl

/-! ## Claims -/

/-- C10: for every input string containing no `"\r\n"` sequence,
`clean_chunked_content` returns the empty string; consequently an SSL
event whose data passes the SSE-detection heuristics but contains no CRLF
pair yields zero parsed SSE events and is passed through unchanged by the
SSE processor rather than accumulated. -/
theorem c10_no_crlf_passthrough (s : String) (hnocrlf : strContains s "\r\n" = false) :
    SSEProcessor.clean_chunked_content s = "" ∧
    ∀ (bufs : SSEProcessor.Buffers) (e : Event), e.source = "ssl" →
      (e.data.get "data").bind Json.asStr = some s →
      SSEProcessor.is_sse_data s = true →
      SSEProcessor.processEvent bufs e = (bufs, some e) := by
  have hclean : SSEProcessor.clean_chunked_content s = "" := by
    unfold SSEProcessor.clean_chunked_content
    rw [rustSplit_of_not_contains hnocrlf]
    rw [cleanChunkedGo_singleton]
    rfl
  refine ⟨hclean, ?_⟩
  intro bufs e hsrc hdata hsse
  have hparse : SSEProcessor.parse_sse_events s = [] := by
    unfold SSEProcessor.parse_sse_events
    rw [hclean]
    rfl
  unfold SSEProcessor.processEvent
  rw [hsrc, hdata]
  simp [hsse, hparse]

/-- The concrete SSL event used to witness C10: its data satisfies the SSE
heuristics (it mentions `event:` and `data:`) but carries no CRLF. -/
def c10Event : Event :=
  { timestamp := 5
    source := "ssl"
    pid := 7
    comm := "curl"
    data := Json.obj [("data", .str "event:x data:y")] }

/-- Witness for C10 at the concrete chunk `"event:x data:y"`. -/
theorem c10_witness :
    SSEProcessor.clean_chunked_content "event:x data:y" = "" ∧
    SSEProcessor.processEvent [] c10Event = ([], some c10Event) := by
  have h := c10_no_crlf_passthrough "event:x data:y" (by decide)
  exact ⟨h.1, h.2 [] c10Event rfl rfl (by decide)⟩

/-- C7: on every event whose source is not `"ssl"`, the HTTP parser and
the SSE processor are the identity: the event is emitted unchanged and,
for the SSE processor, the buffer state is untouched. -/
theorem c7_non_ssl_identity (e : Event) (hsrc : e.source ≠ "ssl")
    (include_raw_data : Bool) (bufs : SSEProcessor.Buffers) :
    HTTPParser.processEvent include_raw_data e = some e ∧
    SSEProcessor.processEvent bufs e = (bufs, some e) := by
  have hbeq : (e.source == "ssl") = false := by
    simpa using hsrc
  constructor
  · unfold HTTPParser.processEvent
    rw [hbeq]
    rfl
  · unfold SSEProcessor.processEvent
    rw [show (e.source != "ssl") = true by simp [bne, hbeq]]
    rfl

/-- A non-SSL event used to witness C7. -/
def c7Event : Event :=
  { timestamp := 1
    source := "process"
    pid := 42
    comm := "python"
    data := Json.obj [("event_type", .str "exec")] }

/-- Witness for C7 at a concrete `process` event. -/
theorem c7_witness :
    HTTPParser.processEvent true c7Event = some c7Event ∧
    SSEProcessor.processEvent [] c7Event = ([], some c7Event) :=
  c7_non_ssl_identity c7Event (by decide) true []

/-- C8: `boot_ns_to_epoch_ms t` equals `boot_epoch_seconds * 1000 +
t / 1_000_000` (integer division) whenever the cached boot time is
non-negative and the sum stays inside `u64`; and the timestamp normalizer
maps an event's timestamp through exactly this function, changing no other
field. -/
theorem c8_timestamp_conversion (boot_time_secs : Int) (t : Nat)
    (hboot : 0 ≤ boot_time_secs)
    (hrange : boot_time_secs * 1000 + ((t / 1000000 : Nat) : Int) < 2 ^ 64) :
    (boot_ns_to_epoch_ms boot_time_secs t : Int) =
      boot_time_secs * 1000 + ((t / 1000000 : Nat) : Int) ∧
    ∀ e : Event,
      (timestampNormalizerStep boot_time_secs e).timestamp =
        boot_ns_to_epoch_ms boot_time_secs e.timestamp ∧
      (timestampNormalizerStep boot_time_secs e).source = e.source ∧
      (timestampNormalizerStep boot_time_secs e).pid = e.pid ∧
      (timestampNormalizerStep boot_time_secs e).comm = e.comm ∧
      (timestampNormalizerStep boot_time_secs e).data = e.data := by
  constructor
  · have hnn : 0 ≤ boot_time_secs * 1000 + ((t / 1000000 : Nat) : Int) := by
      have := Int.natCast_nonneg (t / 1000000)
      nlinarith
    show ((((boot_time_secs * 1000 + ((t / 1000000 : Nat) : Int)) % (2 ^ 64)).toNat : Nat) : Int) =
      boot_time_secs * 1000 + ((t / 1000000 : Nat) : Int)
    rw [Int.emod_eq_of_lt hnn hrange]
    exact Int.toNat_of_nonneg hnn
  · intro e
    exact ⟨rfl, rfl, rfl, rfl, rfl⟩

/-- Witness for C8 at boot time 1 700 000 000 s and `t = 123 456 789` ns. -/
theorem c8_witness :
    (boot_ns_to_epoch_ms 1700000000 123456789 : Int) =
      1700000000 * 1000 + ((123456789 / 1000000 : Nat) : Int) :=
  (c8_timestamp_conversion 1700000000 123456789 (by decide) (by decide)).1

/-- `collectStreams` succeeds when every child runner result is `ok`. -/
lemma collectStreams_isOk (runners : List (Except String (List Event)))
    (h : ∀ r ∈ runners, r.isOk = true) :
    (AgentRunner.collectStreams runners).isOk = true := by
  induction runners with
  | nil => rfl
  | cons r rest ih =>
    have hr := h r (List.mem_cons_self r rest)
    have hrest := ih (fun x hx => h x (List.mem_cons_of_mem r hx))
    cases r with
    | error e => simp [Except.isOk, Except.toBool] at hr
    | ok evs =>
      unfold AgentRunner.collectStreams
      cases hcs : AgentRunner.collectStreams rest with
      | error e => rw [hcs] at hrest; simp [Except.isOk, Except.toBool] at hrest
      | ok l => simp [Except.isOk, Except.toBool]

/-- `applyAnalyzers` succeeds when every analyzer succeeds on every input. -/
lemma applyAnalyzers_isOk (analyzers : List (List Event → Except String (List Event)))
    (h : ∀ a ∈ analyzers, ∀ evs, (a evs).isOk = true) :
    ∀ evs, (AgentRunner.applyAnalyzers analyzers evs).isOk = true := by
  induction analyzers with
  | nil => intro evs; rfl
  | cons a rest ih =>
    intro evs
    have ha := h a (List.mem_cons_self a rest) evs
    unfold AgentRunner.applyAnalyzers
    cases hres : a evs with
    | error e => rw [hres] at ha; simp [Except.isOk, Except.toBool] at ha
    | ok evs' => exact ih (fun x hx => h x (List.mem_cons_of_mem a hx)) evs'

/-- C9: with zero child runners, `AgentRunner::run` fails fast with the
descriptive "no runners configured" error (independently of any configured
global analyzers); with at least one child runner whose `run` succeeds and
analyzers that succeed, `run` does not fail. -/
theorem c9_agent_runner_empty (runners : List (Except String (List Event)))
    (analyzers : List (List Event → Except String (List Event))) :
    (runners = [] →
      AgentRunner.run runners analyzers =
        .error "No runners configured for AgentRunner" ∧
      strContains "No runners configured for AgentRunner" "No runners configured" = true) ∧
    (runners ≠ [] → (∀ r ∈ runners, r.isOk = true) →
      (∀ a ∈ analyzers, ∀ evs, (a evs).isOk = true) →
      (AgentRunner.run runners analyzers).isOk = true) := by
  constructor
  · intro hempty
    subst hempty
    exact ⟨rfl, by decide⟩
  · intro hne hrunners hanalyzers
    unfold AgentRunner.run
    rw [if_neg (by simpa using hne)]
    have hcs := collectStreams_isOk runners hrunners
    cases hres : AgentRunner.collectStreams runners with
    | error e => rw [hres] at hcs; simp [Except.isOk, Except.toBool] at hcs
    | ok streams => exact applyAnalyzers_isOk analyzers hanalyzers streams.flatten

/-- Witness for C9: the empty configuration errors out, and a single
trivial child runner with no analyzers succeeds. -/
theorem c9_witness :
    AgentRunner.run [] [] = .error "No runners configured for AgentRunner" ∧
    (AgentRunner.run [.ok [c7Event]] []).isOk = true := by
  constructor
  · exact ((c9_agent_runner_empty [] []).1 rfl).1
  · exact (c9_agent_runner_empty [.ok [c7Event]] []).2 (by simp)
      (by intro r hr; simp at hr; subst hr; rfl) (by intro a ha; simp at ha)

/-- The three chunked SSL payloads of the SSE happy-path scenario: the
decoded contents form the `message_start`, two `content_block_delta`, and
`message_stop` SSE blocks. -/
def c1Chunk1 : String :=
  "3F\r\nevent:message_start\ndata:\x7b\"message\":\x7b\"id\":\"m1\"\x7d\x7d\r\n0\r\n\r\n"

def c1Chunk2 : String :=
  "7A\r\nevent:content_block_delta\ndata:\x7b\"delta\":\x7b\"type\":\"text_delta\",\"text\":\"Hel\"\x7d\x7d\n\nevent:content_block_delta\ndata:\x7b\"delta\":\x7b\"type\":\"text_delta\",\"text\":\"lo\"\x7d\x7d\r\n0\r\n\r\n"

def c1Chunk3 : String := "19\r\nevent:message_stop\ndata:{}\r\n0\r\n\r\n"

/-- An SSL event of the happy-path connection `(pid 1, tid 2)` carrying
one chunk. -/
def c1Event (ts : Nat) (payload : String) : Event :=
  { timestamp := ts
    source := "ssl"
    pid := 1
    comm := "claude"
    data := Json.obj [("pid", .num 1), ("tid", .num 2),
                      ("function", .str "READ/RECV"), ("data", .str payload)] }

set_option maxRecDepth 40000 in
/-- C1: feeding the SSE processor three SSL events whose chunked-decoded
data form the blocks `message_start` (id `"m1"`), `content_block_delta`
(`"Hel"`), `content_block_delta` (`"lo"`) and `message_stop` emits nothing
for the first two chunks and, on the third, exactly one event with source
`"sse_processor"` whose payload has `text = "Hello"`,
`message_id = "m1"`, `event_count = 4` and `has_message_start = true`. -/
theorem c1_sse_happy_path :
    (SSEProcessor.processAll []
      [c1Event 100 c1Chunk1, c1Event 200 c1Chunk2, c1Event 300 c1Chunk3]).2.map
      (fun o => o.map (fun e =>
        (e.source, e.data.get "text", e.data.get "message_id",
         e.data.get "event_count", e.data.get "has_message_start"))) =
    [none, none,
     some ("sse_processor", some (.str "Hello"), some (.str "m1"),
       some (.num 4), some (.bool true))] := by
  rfl

/-- The compiled filter list `["request.method=GET | response.status_code=404"]`. -/
def c6Filters : List HTTPFilter.FilterNode :=
  [HTTPFilter.parse "request.method=GET | response.status_code=404"]

/-- A parsed GET request event. -/
def c6GetRequest : Event :=
  { timestamp := 10
    source := "http_parser"
    pid := 3
    comm := "node"
    data := Json.obj [("message_type", .str "request"), ("method", .str "GET"),
                      ("path", .str "/api/test")] }

/-- A parsed 200 response event. -/
def c6Response200 : Event :=
  { timestamp := 11
    source := "http_parser"
    pid := 3
    comm := "node"
    data := Json.obj [("message_type", .str "response"), ("status_code", .num 200),
                      ("status_text", .str "OK")] }

/-- A parsed 404 response event. -/
def c6Response404 : Event :=
  { timestamp := 12
    source := "http_parser"
    pid := 3
    comm := "node"
    data := Json.obj [("message_type", .str "response"), ("status_code", .num 404),
                      ("status_text", .str "Not Found")] }

/-- C6: with the single filter expression
`"request.method=GET | response.status_code=404"`, a GET request event is
dropped, a 200 response passes through, and a 404 response is dropped. -/
theorem c6_http_filter_or :
    HTTPFilter.processEvent c6Filters c6GetRequest = none ∧
    HTTPFilter.processEvent c6Filters c6Response200 = some c6Response200 ∧
    HTTPFilter.processEvent c6Filters c6Response404 = none := by
  refine ⟨?_, ?_, ?_⟩ <;> rfl

/-- Rewriting only the `"headers"` values of an object leaves every other
key's lookup unchanged. -/
lemma json_get_map_headers_other (g : Json → Json) (k : String) (hk : k ≠ "headers") :
    ∀ fs : List (String × Json),
      (Json.obj (fs.map (fun p => if p.1 == "headers" then (p.1, g p.2) else p))).get k =
        (Json.obj fs).get k := by
  intro fs
  induction fs with
  | nil => rfl
  | cons p rest ih =>
    simp only [Json.get, List.map_cons, jsonObjGet] at *
    by_cases hph : p.1 = "headers"
    · have hpk : (p.1 == k) = false := by
        rw [hph]
        simp only [beq_eq_false_iff_ne, ne_eq]
        exact fun hcontra => hk hcontra.symm
      have hb : (p.1 == "headers") = true := by simp [hph]
      simp only [hb, if_true, hpk, Bool.false_eq_true, if_false, ih]
    · have hb : (p.1 == "headers") = false := by simp [hph]
      simp only [hb, Bool.false_eq_true, if_false]
      by_cases hpk : p.1 = k
      · have hkb : (p.1 == k) = true := by simp [hpk]
        simp only [jsonObjGet, hkb, if_true]
      · have hkb : (p.1 == k) = false := by simp [hpk]
        simp only [jsonObjGet, hkb, Bool.false_eq_true, if_false, ih]

/-- Rewriting only the `"headers"` values of an object maps its
`"headers"` lookup through the rewrite. -/
lemma json_get_map_headers_self (g : Json → Json) :
    ∀ (fs : List (String × Json)) (v : Json),
      (Json.obj fs).get "headers" = some v →
      (Json.obj (fs.map (fun p => if p.1 == "headers" then (p.1, g p.2) else p))).get
          "headers" = some (g v) := by
  intro fs
  induction fs with
  | nil => intro v h; simp [Json.get, jsonObjGet] at h
  | cons p rest ih =>
    intro v h
    simp only [Json.get, List.map_cons, jsonObjGet] at *
    by_cases hph : p.1 = "headers"
    · have hb : (p.1 == "headers") = true := by simp [hph]
      simp only [hb, if_true] at h ⊢
      cases h
      rfl
    · have hb : (p.1 == "headers") = false := by simp [hph]
      simp only [hb, Bool.false_eq_true, if_false] at h ⊢
      exact ih v h

/-- The header-key test of the remover agrees with "the lower-cased key is
one of the configured (already lower-case) names". -/
lemma shouldRemoveHeader_iff (k : String) :
    AuthHeaderRemover.shouldRemoveHeader AuthHeaderRemover.defaultAuthHeaders k =
      decide (∃ a ∈ AuthHeaderRemover.defaultAuthHeaders, rustLowercase k = a) := by
  have hfixed : ∀ a ∈ AuthHeaderRemover.defaultAuthHeaders, rustLowercase a = a := by
    decide
  unfold AuthHeaderRemover.shouldRemoveHeader
  rcases hany : List.any AuthHeaderRemover.defaultAuthHeaders
      (fun a => rustLowercase k == rustLowercase a) with _ | _
  · rw [List.any_eq_false] at hany
    have : ¬∃ a ∈ AuthHeaderRemover.defaultAuthHeaders, rustLowercase k = a := by
      rintro ⟨a, ha, hEq⟩
      exact hany a ha (by simp [hEq, hfixed a ha])
    simp [this]
  · rw [List.any_eq_true] at hany
    rcases hany with ⟨a, ha, hEq⟩
    rw [beq_iff_eq] at hEq
    have : ∃ a ∈ AuthHeaderRemover.defaultAuthHeaders, rustLowercase k = a :=
      ⟨a, ha, by rw [hEq, hfixed a ha]⟩
    simp [this]

/-- The event used to refute C4 as stated: an `http_parser` event whose
payload has a `headers` mapping holding an `authorization` entry but no
`message_type` field. -/
def c4CexEvent : Event :=
  { timestamp := 1
    source := "http_parser"
    pid := 9
    comm := "node"
    data := Json.obj [("headers", Json.obj [("authorization", .str "Bearer t")])] }

/-- Counterexample to C4 as stated: this `http_parser` event carries a
`headers` mapping with an `authorization` entry, yet `AuthHeaderRemover`
passes it through completely unchanged (its payload has no `message_type`
string, which the code requires before touching headers), so the
`authorization` entry survives, contradicting "removes exactly those
header entries whose key case-insensitively equals one of the configured
redaction names". -/
theorem c4_counterexample :
    AuthHeaderRemover.processEvent c4CexEvent = c4CexEvent ∧
    (AuthHeaderRemover.processEvent c4CexEvent).data.get "headers" =
      some (Json.obj [("authorization", .str "Bearer t")]) := by
  constructor <;> rfl

/-- C4 (amended): `AuthHeaderRemover` leaves non-`http_parser` events and
`http_parser` events without a string `message_type` payload field
untouched; on an `http_parser` event whose payload object has a string
`message_type`, it keeps every non-payload attribute and every payload
field other than `headers` intact, and filters the `headers` mapping down
to exactly those entries whose lower-cased key is not one of the
configured redaction names. -/
theorem c4_auth_header_removal (e : Event) :
    (e.source ≠ "http_parser" → AuthHeaderRemover.processEvent e = e) ∧
    (e.source = "http_parser" →
      ((e.data.get "message_type").bind Json.asStr = none →
        AuthHeaderRemover.processEvent e = e) ∧
      (∀ fs mt, e.data = Json.obj fs →
        (e.data.get "message_type").bind Json.asStr = some mt →
        ((AuthHeaderRemover.processEvent e).timestamp = e.timestamp ∧
         (AuthHeaderRemover.processEvent e).source = e.source ∧
         (AuthHeaderRemover.processEvent e).pid = e.pid ∧
         (AuthHeaderRemover.processEvent e).comm = e.comm) ∧
        (∀ k, k ≠ "headers" →
          (AuthHeaderRemover.processEvent e).data.get k = e.data.get k) ∧
        (∀ hs, e.data.get "headers" = some (.obj hs) →
          (AuthHeaderRemover.processEvent e).data.get "headers" =
            some (.obj (hs.filter (fun h =>
              !decide (∃ a ∈ AuthHeaderRemover.defaultAuthHeaders,
                rustLowercase h.1 = a))))))) := by
  constructor
  · intro hsrc
    unfold AuthHeaderRemover.processEvent
    rw [if_neg (by simpa using hsrc)]
  · intro hsrc
    have hbeq : (e.source == "http_parser") = true := by simp [hsrc]
    constructor
    · intro hmt
      unfold AuthHeaderRemover.processEvent AuthHeaderRemover.remove_auth_headers
      rw [hbeq, if_pos rfl, hmt]
      rfl
    · intro fs mt hobj hmt
      have hdata : (AuthHeaderRemover.processEvent e).data =
          Json.obj (fs.map (fun p => if p.1 == "headers" then
            (p.1, AuthHeaderRemover.filterHeadersValue
              AuthHeaderRemover.defaultAuthHeaders p.2) else p)) := by
        unfold AuthHeaderRemover.processEvent AuthHeaderRemover.remove_auth_headers
        rw [hbeq, if_pos rfl]
        rw [hobj] at hmt ⊢
        simp [hmt]
      refine ⟨?_, ?_, ?_⟩
      · unfold AuthHeaderRemover.processEvent
        rw [hbeq, if_pos rfl]
        exact ⟨rfl, rfl, rfl, rfl⟩
      · intro k hk
        rw [hdata, hobj]
        exact json_get_map_headers_other _ k hk fs
      · intro hs hhs
        rw [hdata]
        rw [hobj] at hhs
        have := json_get_map_headers_self
          (AuthHeaderRemover.filterHeadersValue AuthHeaderRemover.defaultAuthHeaders)
          fs (.obj hs) hhs
        have hred : AuthHeaderRemover.filterHeadersValue
            AuthHeaderRemover.defaultAuthHeaders (.obj hs) =
            .obj (hs.filter (fun h => !AuthHeaderRemover.shouldRemoveHeader
              AuthHeaderRemover.defaultAuthHeaders h.1)) := rfl
        rw [this, hred]
        congr 2
        apply List.filter_congr
        intro h _
        rw [shouldRemoveHeader_iff]

/-- The concrete `http_parser` event used to witness C4: a request payload
whose headers hold an `Authorization` entry (to be redacted) and a
`Content-Type` entry (to be kept). -/
def c4WEvent : Event :=
  { timestamp := 2
    source := "http_parser"
    pid := 9
    comm := "node"
    data := Json.obj
      [("message_type", .str "request"),
       ("headers", Json.obj [("Authorization", .str "Bearer tok123"),
                             ("Content-Type", .str "application/json")])] }

/-- Witness for C4 (amended): on the concrete request event the remover
drops `Authorization`, keeps `Content-Type`, and leaves `message_type`
alone. -/
theorem c4_witness :
    (AuthHeaderRemover.processEvent c4WEvent).data.get "headers" =
      some (Json.obj [("Content-Type", .str "application/json")]) ∧
    (AuthHeaderRemover.processEvent c4WEvent).data.get "message_type" =
      some (.str "request") := by
  have h := ((c4_auth_header_removal c4WEvent).2 rfl).2
    [("message_type", .str "request"),
     ("headers", Json.obj [("Authorization", .str "Bearer tok123"),
                           ("Content-Type", .str "application/json")])]
    "request" rfl rfl
  constructor
  · have hh := h.2.2 [("Authorization", .str "Bearer tok123"),
      ("Content-Type", .str "application/json")] rfl
    rw [hh]
    rfl
  · have hm := h.2.1 "message_type" (by decide)
    rw [hm]
    rfl

/-- `compare_strings` cannot declare both `exact` and `not_equal`. -/
lemma compare_strings_exclusive (a value : String) :
    ¬(SSLFilter.compare_strings a "exact" value = true ∧
      SSLFilter.compare_strings a "not_equal" value = true) := by
  rintro ⟨h1, h2⟩
  simp [SSLFilter.compare_strings] at h1 h2
  exact h2 h1

/-- `compare_numbers` cannot declare both `exact` and `not_equal`. -/
lemma compare_numbers_exclusive (x : Nat) (value : String) :
    ¬(SSLFilter.compare_numbers x "exact" value = true ∧
      SSLFilter.compare_numbers x "not_equal" value = true) := by
  rintro ⟨h1, h2⟩
  unfold SSLFilter.compare_numbers at h1 h2
  cases hp : parseU64 value with
  | none => rw [hp] at h1; simp at h1
  | some e =>
    rw [hp] at h1 h2
    simp at h1 h2
    exact h2 h1

/-- `compare_floats` cannot declare both `exact` and `not_equal`. -/
lemma compare_floats_exclusive (q : Rat) (value : String) :
    ¬(SSLFilter.compare_floats q "exact" value = true ∧
      SSLFilter.compare_floats q "not_equal" value = true) := by
  rintro ⟨h1, h2⟩
  unfold SSLFilter.compare_floats at h1 h2
  cases hp : parseF64 value with
  | none => rw [hp] at h1; simp at h1
  | some e =>
    rw [hp] at h1 h2
    simp at h1 h2
    exact absurd h1 (not_lt.mpr h2)

/-- The payload `{}` on which `truncated=false` and `truncated!=false`
both hold. -/
def c5CexData : Json := Json.obj []

/-- Counterexample to C5 as stated: the parsed conditions
`truncated=false` and `truncated!=false` both evaluate to true on the
empty SSL payload (the boolean fields ignore the parsed operator), so `=`
and `!=` on the same field and value are not exclusive. -/
theorem c5_counterexample :
    SSLFilter.evaluate (SSLFilter.parse "truncated=false") c5CexData = true ∧
    SSLFilter.evaluate (SSLFilter.parse "truncated!=false") c5CexData = true := by
  constructor <;> rfl

/-- C5 (amended): if an SSL filter expression `e` evaluates true on a
payload then so do `(e & e)` and `(e | anything)`; and `=` / `!=` on the
same field and value are exclusive for every field except the two boolean
fields `is_handshake` and `truncated`, whose comparison ignores the
operator. -/
theorem c5_filter_algebra (n m : SSLFilter.FilterNode) (d : Json) :
    (SSLFilter.evaluate_node n d = true →
      SSLFilter.evaluate_node (.and n n) d = true) ∧
    (SSLFilter.evaluate_node n d = true →
      SSLFilter.evaluate_node (.or n m) d = true) ∧
    (∀ field value, field ≠ "is_handshake" → field ≠ "truncated" →
      ¬(SSLFilter.evaluate_condition field "exact" value d = true ∧
        SSLFilter.evaluate_condition field "not_equal" value d = true)) := by
  refine ⟨?_, ?_, ?_⟩
  · intro h
    simp [SSLFilter.evaluate_node, h]
  · intro h
    simp [SSLFilter.evaluate_node, h]
  · intro field value hf1 hf2 hboth
    obtain ⟨h1, h2⟩ := hboth
    unfold SSLFilter.evaluate_condition at h1 h2
    split_ifs at h1 h2 with hdt hnum hlat hts hstr
    · cases hx : (d.get "data").bind Json.asStr with
      | none => simp [hx] at h1
      | some s =>
        simp only [hx] at h1 h2
        exact compare_strings_exclusive (detect_data_type s) value ⟨h1, h2⟩
    · cases hx : (d.get field).bind Json.asU64 with
      | none => simp [hx] at h1
      | some x =>
        simp only [hx] at h1 h2
        exact compare_numbers_exclusive x value ⟨h1, h2⟩
    · cases hx : (d.get "latency_ms").bind Json.asF64 with
      | none => simp [hx] at h1
      | some q =>
        simp only [hx] at h1 h2
        exact compare_floats_exclusive q value ⟨h1, h2⟩
    · cases hx : (d.get "timestamp_ns").bind Json.asU64 with
      | none => simp [hx] at h1
      | some x =>
        simp only [hx] at h1 h2
        exact compare_numbers_exclusive x value ⟨h1, h2⟩
    · cases hx : (d.get field).bind Json.asStr with
      | none => simp [hx] at h1
      | some s =>
        simp only [hx] at h1 h2
        exact compare_strings_exclusive s value ⟨h1, h2⟩

/-- A concrete filter condition and SSL payload instantiating C5. -/
def c5Node : SSLFilter.FilterNode := .condition "function" "exact" "READ/RECV"

def c5Data : Json := Json.obj [("function", .str "READ/RECV")]

/-- Witness for C5 (amended) at the concrete condition
`function = READ/RECV` on a matching payload. -/
theorem c5_witness :
    SSLFilter.evaluate_node (.and c5Node c5Node) c5Data = true ∧
    SSLFilter.evaluate_node (.or c5Node .empty) c5Data = true ∧
    ¬(SSLFilter.evaluate_condition "function" "exact" "x" c5Data = true ∧
      SSLFilter.evaluate_condition "function" "not_equal" "x" c5Data = true) := by
  have h := c5_filter_algebra c5Node .empty c5Data
  exact ⟨h.1 (by rfl), h.2.1 (by rfl), h.2.2 "function" "x" (by decide) (by decide)⟩

/-- UTF-8 byte size of a repeated character. -/
lemma utf8ByteSize_replicate (c : Char) :
    ∀ n, (String.mk (List.replicate n c)).utf8ByteSize = n * c.utf8Size := by
  intro n
  induction n with
  | zero => simp [List.replicate, String.utf8ByteSize, String.utf8ByteSize.go]
  | succ k ih =>
    simp only [List.replicate, String.utf8ByteSize, String.utf8ByteSize.go] at *
    rw [ih, Nat.succ_mul]

/-- The completion scan returns true exactly when some stored event is a
`message_stop` or `error`. -/
lemma hasStopOrError_iff : ∀ l : List SSEProcessor.SSEEvent,
    SSEProcessor.hasStopOrError l = true ↔
      ∃ e ∈ l, e.event = some "message_stop" ∨ e.event = some "error" := by
  intro l
  induction l with
  | nil => simp [SSEProcessor.hasStopOrError]
  | cons e rest ih =>
    simp only [SSEProcessor.hasStopOrError]
    cases hev : e.event with
    | none => simp [hev, ih]
    | some t =>
      by_cases h1 : t = "message_stop"
      · subst h1
        simp [hev]
      · by_cases h2 : t = "error"
        · subst h2
          simp [hev]
        · simp [h1, h2, hev, ih]

/-- The accumulator whose text buffer holds 25 001 copies of the two-byte
character `Ā`: 50 002 UTF-8 bytes but only 25 001 characters. -/
def c2CexAccumulator : SSEProcessor.SSEAccumulator :=
  { message_id := none
    accumulated_text := String.mk (List.replicate 25001 'Ā')
    accumulated_json := ""
    events := []
    is_complete := false
    last_update := 0
    has_message_start := false
    start_time := 0
    end_time := 0 }

/-- Counterexample to C2 as stated: this accumulator stores no
`message_stop` or `error` event and both its buffers are at most 50 000
*characters* long (25 001 and 0), yet `is_sse_complete` deems it complete
— the code's safety limit counts UTF-8 bytes (`String::len`), and the
text buffer holds 50 002 bytes. -/
theorem c2_counterexample :
    SSEProcessor.is_sse_complete c2CexAccumulator = true ∧
    ¬((∃ e ∈ c2CexAccumulator.events,
        e.event = some "message_stop" ∨ e.event = some "error") ∨
      50000 < c2CexAccumulator.accumulated_text.length ∨
      50000 < c2CexAccumulator.accumulated_json.length) := by
  have hbytes : rustStrLen c2CexAccumulator.accumulated_text = 50002 := by
    show (String.mk (List.replicate 25001 'Ā')).utf8ByteSize = 50002
    rw [utf8ByteSize_replicate]
    decide
  constructor
  · unfold SSEProcessor.is_sse_complete
    rw [show SSEProcessor.hasStopOrError c2CexAccumulator.events = false from rfl]
    rw [hbytes]
    simp
  · rintro (⟨e, he, _⟩ | h | h)
    · exact absurd he (by simp [c2CexAccumulator])
    · have hlen : c2CexAccumulator.accumulated_text.length = 25001 := by
        show (List.replicate 25001 'Ā').length = 25001
        rw [List.length_replicate]
      omega
    · have hlen : c2CexAccumulator.accumulated_json.length = 0 := rfl
      omega

/-- C2 (amended): the accumulator is complete exactly when some stored
event has type `message_stop` or `error`, or one of the two buffers
exceeds 50 000 UTF-8 **bytes** (Rust's `String::len`); and an accumulator
with no such event whose buffers are both at most 50 000 bytes causes the
finalization step to emit no merged event. -/
theorem c2_completion (acc : SSEProcessor.SSEAccumulator) :
    (SSEProcessor.is_sse_complete acc = true ↔
      ((∃ e ∈ acc.events, e.event = some "message_stop" ∨ e.event = some "error") ∨
       50000 < rustStrLen acc.accumulated_text ∨
       50000 < rustStrLen acc.accumulated_json)) ∧
    ((¬∃ e ∈ acc.events, e.event = some "message_stop" ∨ e.event = some "error") →
      rustStrLen acc.accumulated_text ≤ 50000 →
      rustStrLen acc.accumulated_json ≤ 50000 →
      ∀ (bufs : SSEProcessor.Buffers) (key : String) (ev : Event),
        (SSEProcessor.finalize_step bufs key ev acc).2 = none) := by
  have hiff : SSEProcessor.is_sse_complete acc = true ↔
      ((∃ e ∈ acc.events, e.event = some "message_stop" ∨ e.event = some "error") ∨
       50000 < rustStrLen acc.accumulated_text ∨
       50000 < rustStrLen acc.accumulated_json) := by
    unfold SSEProcessor.is_sse_complete
    cases h : SSEProcessor.hasStopOrError acc.events with
    | true =>
      simp only [if_pos rfl]
      simp [(hasStopOrError_iff acc.events).mp h]
    | false =>
      have hnot : ¬∃ e ∈ acc.events,
          e.event = some "message_stop" ∨ e.event = some "error" := by
        intro hex
        rw [(hasStopOrError_iff acc.events).mpr hex] at h
        exact absurd h (by simp)
      simp [hnot]
  refine ⟨hiff, ?_⟩
  intro hnot ht hj bufs key ev
  have hfalse : SSEProcessor.is_sse_complete acc = false := by
    rcases hc : SSEProcessor.is_sse_complete acc with _ | _
    · rfl
    · rcases hiff.mp hc with hex | hlt | hlt
      · exact absurd hex hnot
      · omega
      · omega
  simp [SSEProcessor.finalize_step, hfalse]

/-- A dummy triggering event for the C2 witness. -/
def c2WEvent : Event :=
  { timestamp := 0, source := "ssl", pid := 1, comm := "x", data := Json.obj [] }

/-- Witness for C2 (amended): a fresh (empty) accumulator is not
finalized into any merged event. -/
theorem c2_witness :
    (SSEProcessor.finalize_step [] "1:2:0" c2WEvent
      (SSEProcessor.freshAccumulator 0)).2 = none := by
  exact (c2_completion (SSEProcessor.freshAccumulator 0)).2
    (by simp [SSEProcessor.freshAccumulator]) (by decide) (by decide)
    [] "1:2:0" c2WEvent

/-- `ping` and `message_delta` events carry no content potential. -/
lemma content_potential_eq_false {ev : SSEProcessor.SSEEvent}
    (h : ev.event = some "ping" ∨ ev.event = some "message_delta") :
    SSEProcessor.content_potential ev = false := by
  rcases h with h | h <;> simp [SSEProcessor.content_potential, h]

/-- `ping` and `message_delta` events pass the all-metadata test. -/
lemma ping_or_message_delta_eq_true {ev : SSEProcessor.SSEEvent}
    (h : ev.event = some "ping" ∨ ev.event = some "message_delta") :
    SSEProcessor.ping_or_message_delta ev = true := by
  rcases h with h | h <;> simp [SSEProcessor.ping_or_message_delta, h]

/-- C3: an SSL event whose data parses to a non-empty list of SSE events
that are all of type `ping` or `message_delta` is dropped entirely —
no event emitted, buffers untouched — whenever no accumulator exists for
its resolved connection key. -/
theorem c3_metadata_only_suppression (bufs : SSEProcessor.Buffers) (e : Event)
    (s : String)
    (hsrc : e.source = "ssl")
    (hdata : (e.data.get "data").bind Json.asStr = some s)
    (hsse : SSEProcessor.is_sse_data s = true)
    (hne : SSEProcessor.parse_sse_events s ≠ [])
    (hall : ∀ ev ∈ SSEProcessor.parse_sse_events s,
      ev.event = some "ping" ∨ ev.event = some "message_delta")
    (hnoacc : SSEProcessor.bufContainsKey bufs
      (SSEProcessor.generate_connection_id e (SSEProcessor.parse_sse_events s)) = false) :
    SSEProcessor.processEvent bufs e = (bufs, none) := by
  have hany : (SSEProcessor.parse_sse_events s).any SSEProcessor.content_potential
      = false := by
    rw [List.any_eq_false]
    intro ev hev
    simp [content_potential_eq_false (hall ev hev)]
  have hallb : (SSEProcessor.parse_sse_events s).all SSEProcessor.ping_or_message_delta
      = true := by
    rw [List.all_eq_true]
    intro ev hev
    exact ping_or_message_delta_eq_true (hall ev hev)
  have hempty : (SSEProcessor.parse_sse_events s).isEmpty = false := by
    cases hp : SSEProcessor.parse_sse_events s with
    | nil => exact absurd hp hne
    | cons a l => rfl
  unfold SSEProcessor.processEvent
  rw [hsrc, hdata]
  simp [hsse, hempty, hany, hallb, hnoacc]

/-- The SSE event parsed from the witnessing ping chunk. -/
def c3PingParsed : SSEProcessor.SSEEvent :=
  { event := some "ping", data := some "{}", id := none,
    parsed_data := some (Json.obj []), raw_data := none }

/-- The chunked SSL payload holding exactly one `ping` SSE block. -/
def c3PingChunk : String := "5\r\nevent:ping\ndata:{}\r\n0\r\n\r\n"

/-- The witnessing SSL event for C3. -/
def c3Event : Event :=
  { timestamp := 50
    source := "ssl"
    pid := 3
    comm := "claude"
    data := Json.obj [("pid", .num 3), ("tid", .num 4), ("data", .str c3PingChunk)] }

/-- Witness for C3: a lone ping chunk with no open accumulator for its
`(pid, tid)` yields no output event. -/
theorem c3_witness : SSEProcessor.processEvent [] c3Event = ([], none) := by
  have hp : SSEProcessor.parse_sse_events c3PingChunk = [c3PingParsed] := by rfl
  refine c3_metadata_only_suppression [] c3Event c3PingChunk rfl rfl (by decide)
    (by rw [hp]; simp) ?_ rfl
  intro ev hev
  rw [hp] at hev
  simp only [List.mem_singleton] at hev
  subst hev
  exact Or.inl rfl
